import Mathlib

/-!
# PAN utilities and transaction engine

A shallow embedding of `pan_utils.cpp` (Luhn validation, check-digit
calculation, PAN synthesis), of the classes of `transaction_engine.cpp`
(transaction, queue, router, engine, batch accumulator) and of the AES-GCM
wrappers of `encryption_utils.cpp`, with the properties proved about them.

Modelling conventions.
* A `std::string` is a Lean `String`; each character of `String.data` stands
  for one `char` of the string.
* A C++ `int` has 32 bits.  A value stored in an `int` of the Luhn loops (the
  running `sum`, and `nDigits`, which receives the length of the string) passes
  through `to_int`, which keeps it modulo `2^32` between `-2^31` and
  `2^31 - 1`; a `char` is promoted to `int` as a signed value of eight bits
  (`char_to_int`).  An `int` that is only compared or counted (`length`,
  `count`, `numWorkers`) is a Lean `Int`.
* `::isdigit` is the "C" locale test `'0' ≤ c ≤ '9'`.
* The pseudo-random generator of `generate_pan` is replaced by the sequence of
  its outcomes: `draws i` is the value returned by the `i`-th call of
  `distribution(generator)`, a number between 0 and 9.
-/

namespace fintechx_core

/-! ## `pan_utils.cpp` -/

/-- The "C" locale `::isdigit`. -/
def isdigit (c : Char) : Bool :=
  decide (48 ≤ c.toNat) && decide (c.toNat ≤ 57)

/-- `is_digits`: `std::all_of(str.begin(), str.end(), ::isdigit)`. -/
def is_digits (str : String) : Bool :=
  str.data.all isdigit

/-- The value stored in an `int` when `x` is assigned to it: the value congruent
to `x` modulo `2^32` between `-2^31` and `2^31 - 1`. -/
def to_int (x : Int) : Int :=
  (x + 2147483648) % 4294967296 - 2147483648

/-- The `int` to which a `char` is promoted: the low eight bits, as a signed
value. -/
def char_to_int (c : Char) : Int :=
  let b : Int := ((c.toNat % 256 : Nat) : Int)
  if b < 128 then b else b - 256

/-- Body of the loop shared by `luhn_check` and `calculate_luhn_check_digit`:
the contribution of the character `c` to `sum`, given the flag `alternate`. -/
def luhn_digit (alternate : Bool) (c : Char) : Int :=
  let digit : Int := char_to_int c - 48
  if alternate then
    let digit := digit * 2
    if digit > 9 then digit - 9 else digit
  else digit

/-- The loop `for (int i = nDigits - 1; i >= 0; i--)` of `luhn_check` and
`calculate_luhn_check_digit`.  The first argument after the string is `i + 1`;
`sum` and `alternate` are the loop-carried variables, and `sum += digit` is an
addition of `int`s. -/
def luhn_loop (pan : List Char) : Nat → Int → Bool → Int
  | 0, sum, _ => sum
  | i + 1, sum, alternate =>
    luhn_loop pan i (to_int (sum + luhn_digit alternate (pan.getD i '0'))) (!alternate)

/-- `luhn_check`.  The loop starts at `i = nDigits - 1`, an `int`, and runs
`i + 1` times when that is not negative. -/
def luhn_check (pan : String) : Bool :=
  if pan.data.isEmpty || !is_digits pan then false
  else
    let nDigits : Int := to_int (pan.length : Int)
    let sum := luhn_loop pan.data (to_int (nDigits - 1) + 1).toNat 0 false
    decide (Int.tmod sum 10 = 0)

/-- `calculate_luhn_check_digit`.  The result `check_digit + '0'` is converted
to `char`. -/
def calculate_luhn_check_digit (partial_pan : String) : Char :=
  let pan_with_zero := partial_pan.push '0'
  let nDigits : Int := to_int (pan_with_zero.length : Int)
  let sum := luhn_loop pan_with_zero.data (to_int (nDigits - 1) + 1).toNat 0 false
  let check_digit : Int := if Int.tmod sum 10 = 0 then 0 else 10 - Int.tmod sum 10
  Char.ofNat (check_digit + 48).toNat

/-- `std::to_string` on a non-negative `int`. -/
def to_string (n : Nat) : String :=
  Nat.repr n

/-- `generate_pan`.  `draws i` is the outcome of the `i`-th call of
`distribution(generator)`. -/
def generate_pan (draws : Nat → Fin 10) (pfx : String) (length : Int) : Option String :=
  if length ≤ 0 ∨ (pfx.length : Int) ≥ length ∨ ¬ (is_digits pfx = true) then none
  else
    let remaining_digits : Int := length - (pfx.length : Int) - 1
    if remaining_digits < 0 then none
    else
      let partial_pan := (List.range remaining_digits.toNat).foldl
        (fun acc i => acc ++ to_string (draws i).val) pfx
      some (partial_pan.push (calculate_luhn_check_digit partial_pan))

/-- `generate_pan_batch`.  `draws k` is the outcome sequence of the generator
created by the `k`-th call of `generate_pan`. -/
def generate_pan_batch (draws : Nat → Nat → Fin 10) (pfx : String) (length count : Int) :
    List String :=
  if count ≤ 0 ∨ length ≤ 0 ∨ (pfx.length : Int) ≥ length ∨ ¬ (is_digits pfx = true) then []
  else
    (List.range count.toNat).foldl
      (fun batch i =>
        match generate_pan (draws i) pfx length with
        | some pan => batch ++ [pan]
        | none => batch)
      []

/-! ### Auxiliary definitions used in the statements and proofs -/

/-- The sum computed by `luhn_loop` when no addition leaves the range of `int`,
as a recursion over the characters taken from right to left (the list argument
is the reversed string). -/
def luhn_fold : Bool → List Char → Int
  | _, [] => 0
  | alternate, c :: cs => luhn_digit alternate c + luhn_fold (!alternate) cs

/-- The Luhn sum as the specification words it: walk the digits right to left
(position 0 is the rightmost digit), keep the digits at even positions
unchanged, double the others, subtract 9 from a doubled value greater than 9,
and add everything up. -/
def luhn_sum_spec (pan : String) : Int :=
  ((pan.data.reverse.enum).map (fun p =>
    let d : Int := (p.2.toNat : Int) - 48
    if p.1 % 2 = 0 then d else if 2 * d > 9 then 2 * d - 9 else 2 * d)).sum

/-- The guard of `generate_pan` (and the last three disjuncts of the guard of
`generate_pan_batch`). -/
def pan_input_invalid (pfx : String) (length : Int) : Prop :=
  length ≤ 0 ∨ (pfx.length : Int) ≥ length ∨ ¬ (is_digits pfx = true)

instance (pfx : String) (length : Int) : Decidable (pan_input_invalid pfx length) := by
  unfold pan_input_invalid; infer_instance

/-- The string made of `n` characters `'9'`. -/
def nines (n : Nat) : String :=
  ⟨List.replicate n '9'⟩

end fintechx_core

/-! ## `transaction_engine.cpp`: transactions and the router

The classes of the transaction engine live in the global namespace.  The
router's mutex only serialises its operations; they are modelled as functions
on the router's state. -/

/-- `Transaction::Status`. -/
inductive Transaction.Status where
  | PENDING
  | PROCESSING
  | APPROVED
  | DECLINED
  | ERROR
  | TIMEOUT
  deriving DecidableEq, Repr

/-- `Transaction::Type`. -/
inductive Transaction.Type where
  | PAYMENT
  | REFUND
  | AUTHORIZATION
  | CAPTURE
  | VOID
  deriving DecidableEq, Repr

/-- The data members of `class Transaction`.  A finite `double` is a rational
number; a `time_point` is its tick count since the epoch. -/
structure Transaction where
  id : String
  type : Transaction.Type
  amount : Rat
  currency : String
  card_token : String
  merchant_id : String
  status : Transaction.Status
  created_at : Nat
  processed_at : Nat
  response_code : String
  response_message : String
  deriving DecidableEq

/-- A `std::unordered_map<std::string, V>`, as the list of its key/value pairs. -/
abbrev UnorderedMap (V : Type) := List (String × V)

/-- `m.find(key)`: `none` stands for `m.end()`, `some v` for an iterator whose
`second` is `v`. -/
def UnorderedMap.find {V : Type} : UnorderedMap V → String → Option V
  | [], _ => none
  | (k, v) :: rest, key => if k = key then some v else UnorderedMap.find rest key

/-- `m[key] = value`: overwrite the value stored under `key`, or insert the
pair when the key is absent. -/
def UnorderedMap.assign {V : Type} : UnorderedMap V → String → V → UnorderedMap V
  | [], key, value => [(key, value)]
  | (k, v) :: rest, key, value =>
    if k = key then (k, value) :: rest else (k, v) :: UnorderedMap.assign rest key value

/-- Search of `std::string::find`: the first position at or after `pos` (the
position of the head of the remaining text) where `pattern` occurs. -/
def find_from (pattern : List Char) : List Char → Nat → Option Nat
  | [], pos => if pattern.isPrefixOf [] then some pos else none
  | c :: cs, pos =>
    if pattern.isPrefixOf (c :: cs) then some pos else find_from pattern cs (pos + 1)

/-- `s.find(pattern)`; `none` stands for `std::string::npos`. -/
def string_find (s pattern : String) : Option Nat :=
  find_from pattern.data s.data 0

/-- The data members of `class TransactionRouter` (without the mutex). -/
structure TransactionRouter where
  currencyRoutes : UnorderedMap String
  cardBrandRoutes : UnorderedMap String

namespace TransactionRouter

/-- The constructor `TransactionRouter() {}`: both tables empty. -/
def new : TransactionRouter :=
  { currencyRoutes := [], cardBrandRoutes := [] }

/-- `addRoute`: `currencyRoutes[currency] = processorId`. -/
def addRoute (r : TransactionRouter) (currency processorId : String) : TransactionRouter :=
  { r with currencyRoutes := r.currencyRoutes.assign currency processorId }

/-- `addCardBrandRoute`: `cardBrandRoutes[cardBrand] = processorId`. -/
def addCardBrandRoute (r : TransactionRouter) (cardBrand processorId : String) :
    TransactionRouter :=
  { r with cardBrandRoutes := r.cardBrandRoutes.assign cardBrand processorId }

/-- `extractCardBrand`. -/
def extractCardBrand (cardToken : String) : String :=
  if string_find cardToken "visa" ≠ none then "visa"
  else if string_find cardToken "mc" ≠ none then "mastercard"
  else if string_find cardToken "amex" ≠ none then "amex"
  else "unknown"

/-- `getProcessorForTransaction`. -/
def getProcessorForTransaction (r : TransactionRouter) (transaction : Transaction) : String :=
  match r.currencyRoutes.find transaction.currency with
  | some second => second
  | none =>
    let cardBrand := extractCardBrand transaction.card_token
    match r.cardBrandRoutes.find cardBrand with
    | some second => second
    | none => "default-processor"

end TransactionRouter

/-! ## `transaction_engine.cpp`: the transaction, the queue, the engine and the batch accumulator

Every mutex-protected member function is modelled as a function on the state of
its object, one call being one atomic step.  A member function that is not
`const` returns the new state next to its result.  Sleeps and the text written
to `std::cout` are left out.  `std::chrono::system_clock::now()` is the
parameter `now`; the values returned by the successive calls of `rand()` inside
one handler invocation are the parameter `rand`. -/

namespace Transaction

/-- The constructor of `Transaction`. -/
def new (now : Nat) (id : String) (type : Transaction.Type) (amount : Rat)
    (currency card_token merchant_id : String) : Transaction :=
  { id := id
    type := type
    amount := amount
    currency := currency
    card_token := card_token
    merchant_id := merchant_id
    status := Transaction.Status.PENDING
    created_at := now
    processed_at := 0
    response_code := ""
    response_message := "" }

/-- `setStatus`. -/
def setStatus (t : Transaction) (newStatus : Transaction.Status) : Transaction :=
  { t with status := newStatus }

/-- `setProcessedAt`. -/
def setProcessedAt (t : Transaction) (time : Nat) : Transaction :=
  { t with processed_at := time }

/-- `setResponseCode`. -/
def setResponseCode (t : Transaction) (code : String) : Transaction :=
  { t with response_code := code }

/-- `setResponseMessage`. -/
def setResponseMessage (t : Transaction) (message : String) : Transaction :=
  { t with response_message := message }

end Transaction

/-- The data member `queue` of `class TransactionQueue`: a `std::queue`, front
first. -/
structure TransactionQueue where
  queue : List Transaction

namespace TransactionQueue

/-- A default-constructed `TransactionQueue`. -/
def new : TransactionQueue :=
  { queue := [] }

/-- `enqueue`: `queue.push(transaction)`. -/
def enqueue (q : TransactionQueue) (transaction : Transaction) : TransactionQueue :=
  { queue := q.queue ++ [transaction] }

/-- `dequeue`.  `q` is the queue at the moment `wait_for` returns: non-empty
when the predicate held, empty when the timeout elapsed.  The result is the
returned `bool`, the out-parameter `transaction` and the queue. -/
def dequeue (q : TransactionQueue) (transaction : Transaction) :
    Bool × Transaction × TransactionQueue :=
  match q.queue with
  | front :: rest => (true, front, { queue := rest })
  | [] => (false, transaction, q)

/-- `size`. -/
def size (q : TransactionQueue) : Nat :=
  q.queue.length

/-- `empty`. -/
def empty (q : TransactionQueue) : Bool :=
  q.queue.isEmpty

end TransactionQueue

namespace TransactionRouter

/-- Modelled from the spec: `addCurrencyRoute`, which `setupDefaultProcessors`
calls and `class TransactionRouter` does not define.  The spec's
add_currency_route is an "upsert in the currency table". -/
def addCurrencyRoute (r : TransactionRouter) (currency processorId : String) :
    TransactionRouter :=
  { r with currencyRoutes := r.currencyRoutes.assign currency processorId }

end TransactionRouter

/-- `ProcessorFunction`, a `std::function<void(Transaction&)>`: the transaction
it leaves in its argument, given the outcomes of its calls of `rand()`.  A
handler that throws, an empty `std::function` among them, has no counterpart. -/
abbrev ProcessorFunction := (Nat → Nat) → Transaction → Transaction

/-- The data members of `class TransactionProcessor` (without the mutex and the
condition variable).  `workers` is the size of the vector of threads. -/
structure TransactionProcessor where
  pendingQueue : TransactionQueue
  running : Bool
  workers : Nat
  numWorkers : Int
  processors : UnorderedMap ProcessorFunction
  transactionResults : UnorderedMap Transaction
  router : TransactionRouter

namespace TransactionProcessor

/-- `processDefaultTransaction`. -/
def processDefaultTransaction (_rand : Nat → Nat) (tx : Transaction) : Transaction :=
  if tx.amount < 10000 then
    ((tx.setStatus Transaction.Status.APPROVED).setResponseCode "00").setResponseMessage
      "Approved"
  else
    ((tx.setStatus Transaction.Status.DECLINED).setResponseCode "51").setResponseMessage
      "Insufficient funds"

/-- `processVisaTransaction`: the first `rand()` sets the sleep, the second
decides. -/
def processVisaTransaction (rand : Nat → Nat) (tx : Transaction) : Transaction :=
  if rand 1 % 100 < 95 then
    ((tx.setStatus Transaction.Status.APPROVED).setResponseCode "00").setResponseMessage
      "Approved by Visa"
  else
    ((tx.setStatus Transaction.Status.DECLINED).setResponseCode "05").setResponseMessage
      "Do not honor"

/-- `processMastercardTransaction`: the first `rand()` sets the sleep, the
second decides. -/
def processMastercardTransaction (rand : Nat → Nat) (tx : Transaction) : Transaction :=
  if rand 1 % 100 < 92 then
    ((tx.setStatus Transaction.Status.APPROVED).setResponseCode "00").setResponseMessage
      "Approved by Mastercard"
  else
    ((tx.setStatus Transaction.Status.DECLINED).setResponseCode "54").setResponseMessage
      "Expired card"

/-- `registerProcessor`: `processors[processorId] = processor`. -/
def registerProcessor (e : TransactionProcessor) (processorId : String)
    (processor : ProcessorFunction) : TransactionProcessor :=
  { e with processors := e.processors.assign processorId processor }

/-- `setupDefaultProcessors`. -/
def setupDefaultProcessors (e : TransactionProcessor) : TransactionProcessor :=
  let e := e.registerProcessor "default-processor" processDefaultTransaction
  let e := e.registerProcessor "visa-processor" processVisaTransaction
  let e := e.registerProcessor "mastercard-processor" processMastercardTransaction
  { e with router :=
      (((e.router.addCardBrandRoute "visa" "visa-processor").addCardBrandRoute
        "mastercard" "mastercard-processor").addCurrencyRoute
        "EUR" "european-processor").addCurrencyRoute "GBP" "european-processor" }

/-- The constructor `TransactionProcessor(int numWorkers = 4)`. -/
def new (numWorkers : Int) : TransactionProcessor :=
  setupDefaultProcessors
    { pendingQueue := TransactionQueue.new
      running := false
      workers := 0
      numWorkers := numWorkers
      processors := []
      transactionResults := []
      router := TransactionRouter.new }

/-- `start`: the loop `for (int i = 0; i < numWorkers; ++i)` pushes one thread
per iteration. -/
def start (e : TransactionProcessor) : TransactionProcessor :=
  if e.running then e
  else
    { e with
      running := true
      workers := (List.range e.numWorkers.toNat).foldl (fun workers _ => workers + 1)
        e.workers }

/-- `stop`: every worker is joined, then `workers.clear()`. -/
def stop (e : TransactionProcessor) : TransactionProcessor :=
  if !e.running then e
  else { e with running := false, workers := 0 }

/-- `submitTransaction`. -/
def submitTransaction (e : TransactionProcessor) (transaction : Transaction) :
    TransactionProcessor :=
  { e with pendingQueue := e.pendingQueue.enqueue transaction }

/-- `getTransactionStatus`. -/
def getTransactionStatus (e : TransactionProcessor) (transactionId : String) :
    Transaction.Status × TransactionProcessor :=
  match e.transactionResults.find transactionId with
  | some second => (second.status, e)
  | none => (Transaction.Status.PENDING, e)

/-- `getTransactionResult`. -/
def getTransactionResult (e : TransactionProcessor) (now : Nat) (transactionId : String) :
    Transaction × TransactionProcessor :=
  match e.transactionResults.find transactionId with
  | some second => (second, e)
  | none => (Transaction.new now "" Transaction.Type.PAYMENT 0 "" "" "", e)

/-- `processTransaction`.  The result is the transaction left in the reference
argument and the new state; `none` stands for the `std::bad_function_call`
thrown by `processors["default-processor"](transaction)` when that key is
absent, `operator[]` then giving an empty `std::function`. -/
def processTransaction (e : TransactionProcessor) (rand : Nat → Nat) (now : Nat)
    (transaction : Transaction) : Option (Transaction × TransactionProcessor) :=
  let transaction := transaction.setStatus Transaction.Status.PROCESSING
  let processorId := e.router.getProcessorForTransaction transaction
  let invoked : Option Transaction :=
    match e.processors.find processorId with
    | some second => some (second rand transaction)
    | none =>
      match e.processors.find "default-processor" with
      | some second => some (second rand transaction)
      | none => none
  match invoked with
  | none => none
  | some transaction =>
    let transaction := transaction.setProcessedAt now
    some (transaction,
      { e with
        transactionResults := e.transactionResults.assign transaction.id transaction })

end TransactionProcessor

/-- The data members of `class BatchProcessor` (without the thread, the mutex
and the condition variable).  The engine it refers to is passed to the
operations that use it. -/
structure BatchProcessor where
  batchQueue : List Transaction
  running : Bool
  batchIntervalSeconds : Int

namespace BatchProcessor

/-- The constructor `BatchProcessor(TransactionProcessor& processor)`. -/
def new : BatchProcessor :=
  { batchQueue := [], running := false, batchIntervalSeconds := 60 }

/-- `addToBatch`. -/
def addToBatch (b : BatchProcessor) (transaction : Transaction) : BatchProcessor :=
  { b with batchQueue := b.batchQueue ++ [transaction] }

/-- `getBatchSize`. -/
def getBatchSize (b : BatchProcessor) : Nat :=
  b.batchQueue.length

/-- `processBatch`. -/
def processBatch (b : BatchProcessor) (transactionProcessor : TransactionProcessor) :
    BatchProcessor × TransactionProcessor :=
  if b.batchQueue.isEmpty then (b, transactionProcessor)
  else
    ({ b with batchQueue := [] },
      b.batchQueue.foldl (fun e transaction => e.submitTransaction transaction)
        transactionProcessor)

/-- `processBatchNow`. -/
def processBatchNow (b : BatchProcessor) (transactionProcessor : TransactionProcessor) :
    BatchProcessor × TransactionProcessor :=
  processBatch b transactionProcessor

/-- `setAutoBatchInterval`. -/
def setAutoBatchInterval (b : BatchProcessor) (seconds : Int) : BatchProcessor :=
  { b with batchIntervalSeconds := seconds }

end BatchProcessor

/-! ### Auxiliary definitions for the statements on the engine -/

/-- A payment created at time 5 for the merchant `"merchant-123"`, used as
concrete input. -/
def samplePayment (id : String) (amount : Rat) (currency card_token : String) : Transaction :=
  Transaction.new 5 id Transaction.Type.PAYMENT amount currency card_token "merchant-123"

/-- A fresh engine with four workers whose result store holds, under `"t1"`,
a declined payment of 25000.00 USD. -/
def sampleEngineWithResult : TransactionProcessor :=
  { TransactionProcessor.new 4 with
    transactionResults :=
      [("t1", (samplePayment "t1" 25000 "USD" "tok").setStatus Transaction.Status.DECLINED)] }

/-- A call on a `TransactionQueue`: `enqueue(t)`, or `dequeue(out)` with the
caller's output transaction. -/
inductive QueueOp where
  | enqueue (t : Transaction)
  | dequeue (out : Transaction)

/-- Run a sequence of calls on a queue, collecting the transactions handed out
by the successful dequeues, in order. -/
def runQueueOps : List QueueOp → TransactionQueue → List Transaction →
    TransactionQueue × List Transaction
  | [], q, outs => (q, outs)
  | QueueOp.enqueue t :: ops, q, outs => runQueueOps ops (q.enqueue t) outs
  | QueueOp.dequeue out :: ops, q, outs =>
    match q.dequeue out with
    | (true, t, q') => runQueueOps ops q' (outs ++ [t])
    | (false, _, q') => runQueueOps ops q' outs

/-- The transactions enqueued by a sequence of calls, in order. -/
def enqueuedBy : List QueueOp → List Transaction
  | [] => []
  | QueueOp.enqueue t :: ops => t :: enqueuedBy ops
  | QueueOp.dequeue _ :: ops => enqueuedBy ops

/-- A call of `start()` or `stop()` on the engine. -/
inductive LifecycleOp where
  | start
  | stop
  deriving DecidableEq

/-- Run a sequence of `start()` and `stop()` calls. -/
def runLifecycle : List LifecycleOp → TransactionProcessor → TransactionProcessor
  | [], e => e
  | LifecycleOp.start :: ops, e => runLifecycle ops e.start
  | LifecycleOp.stop :: ops, e => runLifecycle ops e.stop

/-- The pool invariant: `numWorkers` threads (none for a negative `numWorkers`)
while running, none while stopped. -/
def poolInvariant (e : TransactionProcessor) : Prop :=
  (e.running = true → e.workers = e.numWorkers.toNat) ∧ (e.running = false → e.workers = 0)

/-! ## `transaction_engine.cpp`: JSON emission and the worker loop -/

namespace Transaction

/-- `typeToString`. -/
def typeToString : Transaction.Type → String
  | .PAYMENT => "payment"
  | .REFUND => "refund"
  | .AUTHORIZATION => "authorization"
  | .CAPTURE => "capture"
  | .VOID => "void"

/-- `statusToString`. -/
def statusToString : Transaction.Status → String
  | .PENDING => "pending"
  | .PROCESSING => "processing"
  | .APPROVED => "approved"
  | .DECLINED => "declined"
  | .ERROR => "error"
  | .TIMEOUT => "timeout"

/-- `toJson`.  The text that `std::fixed << std::setprecision(2)` gives for the
amount is the parameter `fixed2`; the text that `timePointToString` gives for a
time point (local time, by `std::put_time`) is the parameter of that name. -/
def toJson (fixed2 : Rat → String) (timePointToString : Nat → String) (t : Transaction) :
    String :=
  let ss := "\x7b"
  let ss := ss ++ "\"id\":\"" ++ t.id ++ "\","
  let ss := ss ++ "\"type\":\"" ++ typeToString t.type ++ "\","
  let ss := ss ++ "\"amount\":" ++ fixed2 t.amount ++ ","
  let ss := ss ++ "\"currency\":\"" ++ t.currency ++ "\","
  let ss := ss ++ "\"card_token\":\"" ++ t.card_token ++ "\","
  let ss := ss ++ "\"merchant_id\":\"" ++ t.merchant_id ++ "\","
  let ss := ss ++ "\"status\":\"" ++ statusToString t.status ++ "\","
  let ss := ss ++ "\"created_at\":\"" ++ timePointToString t.created_at ++ "\","
  let ss :=
    if t.status ≠ Transaction.Status.PENDING ∧ t.status ≠ Transaction.Status.PROCESSING then
      let ss := ss ++ "\"processed_at\":\"" ++ timePointToString t.processed_at ++ "\","
      let ss := ss ++ "\"response_code\":\"" ++ t.response_code ++ "\","
      ss ++ "\"response_message\":\"" ++ t.response_message ++ "\""
    else
      let ss := ss ++ "\"processed_at\":null,"
      let ss := ss ++ "\"response_code\":null,"
      ss ++ "\"response_message\":null"
  ss ++ "\x7d"

end Transaction

namespace TransactionProcessor

/-- One iteration of the loop `while (running)` of `workerThread`, run by one of
the worker threads.  `fresh` is the local `Transaction transaction;` that
`dequeue` overwrites; `none` stands for the exception that ends
`processTransaction`. -/
def workerThreadIteration (e : TransactionProcessor) (rand : Nat → Nat) (now : Nat)
    (fresh : Transaction) : Option TransactionProcessor :=
  if e.running then
    match e.pendingQueue.dequeue fresh with
    | (true, transaction, queue) =>
      (processTransaction { e with pendingQueue := queue } rand now transaction).map Prod.snd
    | (false, _, queue) => some { e with pendingQueue := queue }
  else some e

end TransactionProcessor

/-! ## `encryption_utils.cpp`

OpenSSL is not part of the repository: its behaviour is the parameter `lib`.
Both functions are returned with the list of the OpenSSL calls they made, in
order.  The text written to `std::cerr` is left out. -/

namespace fintechx_core

/-- A `std::vector<unsigned char>`. -/
abbrev Bytes := List (Fin 256)

/-- The OpenSSL calls that `encrypt_aes_gcm` and `decrypt_aes_gcm` make on their
cipher context, with the data they pass in. -/
inductive EvpCall where
  /-- `EVP_CIPHER_CTX_new()` -/
  | CIPHER_CTX_new
  /-- `EVP_EncryptInit_ex(ctx, EVP_aes_256_gcm(), NULL, NULL, NULL)` -/
  | EncryptInit_ex_cipher
  /-- `EVP_CIPHER_CTX_ctrl(ctx, EVP_CTRL_GCM_SET_IVLEN, ivlen, NULL)` -/
  | CTRL_GCM_SET_IVLEN (ivlen : Nat)
  /-- `EVP_EncryptInit_ex(ctx, NULL, NULL, key, iv)` -/
  | EncryptInit_ex_key_iv (key iv : Bytes)
  /-- `EVP_EncryptUpdate(ctx, NULL, &len, aad, aad.size())` -/
  | EncryptUpdate_aad (aad : Bytes)
  /-- `EVP_EncryptUpdate(ctx, out, &len, data, data.size())` -/
  | EncryptUpdate (data : Bytes)
  /-- `EVP_EncryptFinal_ex(ctx, out, &len)` -/
  | EncryptFinal_ex
  /-- `EVP_CIPHER_CTX_ctrl(ctx, EVP_CTRL_GCM_GET_TAG, taglen, tag)` -/
  | CTRL_GCM_GET_TAG (taglen : Nat)
  /-- `EVP_DecryptInit_ex(ctx, EVP_aes_256_gcm(), NULL, NULL, NULL)` -/
  | DecryptInit_ex_cipher
  /-- `EVP_DecryptInit_ex(ctx, NULL, NULL, key, iv)` -/
  | DecryptInit_ex_key_iv (key iv : Bytes)
  /-- `EVP_DecryptUpdate(ctx, NULL, &len, aad, aad.size())` -/
  | DecryptUpdate_aad (aad : Bytes)
  /-- `EVP_DecryptUpdate(ctx, out, &len, data, data.size())` -/
  | DecryptUpdate (data : Bytes)
  /-- `EVP_CIPHER_CTX_ctrl(ctx, EVP_CTRL_GCM_SET_TAG, tag.size(), tag)` -/
  | CTRL_GCM_SET_TAG (tag : Bytes)
  /-- `EVP_DecryptFinal_ex(ctx, out, &len)` -/
  | DecryptFinal_ex
  /-- `EVP_CIPHER_CTX_free(ctx)` -/
  | CIPHER_CTX_free
  deriving DecidableEq

/-- What an OpenSSL call gives back: its return value (for
`EVP_CIPHER_CTX_new`, zero stands for the null pointer) and the bytes it writes
to its output buffer, whose number it stores in `len`. -/
structure EvpResult where
  ret : Int
  out : Bytes

/-- The behaviour of OpenSSL: `lib calls call` is the outcome of `call` on a
context on which the calls `calls` have been made before. -/
abbrev OpenSSL := List EvpCall → EvpCall → EvpResult

/-- Writing `data` into a buffer from position `offset` on. -/
def write_at (buffer : Bytes) (offset : Nat) (data : Bytes) : Bytes :=
  buffer.take offset ++ data ++ buffer.drop (offset + data.length)

/-- `std::vector::resize`. -/
def resize (v : Bytes) (n : Nat) : Bytes :=
  v.take n ++ List.replicate (n - v.length) 0

/-- `encrypt_aes_gcm`: the returned optional and the OpenSSL calls made. -/
def encrypt_aes_gcm (lib : OpenSSL) (plaintext key iv aad : Bytes) :
    Option Bytes × List EvpCall :=
  if key.length ≠ 32 ∨ iv.length ≠ 12 then (none, [])
  else
    let ciphertext : Bytes := List.replicate plaintext.length 0
    let tag : Bytes := List.replicate 16 0
    let t1 := [EvpCall.CIPHER_CTX_new]
    if (lib [] EvpCall.CIPHER_CTX_new).ret = 0 then (none, t1)
    else
      let t2 := t1 ++ [EvpCall.EncryptInit_ex_cipher]
      if (lib t1 EvpCall.EncryptInit_ex_cipher).ret ≠ 1 then
        (none, t2 ++ [EvpCall.CIPHER_CTX_free])
      else
        let t3 := t2 ++ [EvpCall.CTRL_GCM_SET_IVLEN iv.length]
        if (lib t2 (EvpCall.CTRL_GCM_SET_IVLEN iv.length)).ret ≠ 1 then
          (none, t3 ++ [EvpCall.CIPHER_CTX_free])
        else
          let t4 := t3 ++ [EvpCall.EncryptInit_ex_key_iv key iv]
          if (lib t3 (EvpCall.EncryptInit_ex_key_iv key iv)).ret ≠ 1 then
            (none, t4 ++ [EvpCall.CIPHER_CTX_free])
          else
            let t5 := if aad.isEmpty then t4 else t4 ++ [EvpCall.EncryptUpdate_aad aad]
            if ¬ aad.isEmpty ∧ (lib t4 (EvpCall.EncryptUpdate_aad aad)).ret ≠ 1 then
              (none, t5 ++ [EvpCall.CIPHER_CTX_free])
            else
              let update := lib t5 (EvpCall.EncryptUpdate plaintext)
              let t6 := t5 ++ [EvpCall.EncryptUpdate plaintext]
              if update.ret ≠ 1 then (none, t6 ++ [EvpCall.CIPHER_CTX_free])
              else
                let ciphertext := write_at ciphertext 0 update.out
                let len := update.out.length
                let ciphertext_len := len
                let final := lib t6 EvpCall.EncryptFinal_ex
                let t7 := t6 ++ [EvpCall.EncryptFinal_ex]
                if final.ret ≠ 1 then (none, t7 ++ [EvpCall.CIPHER_CTX_free])
                else
                  let ciphertext := write_at ciphertext len final.out
                  let len := final.out.length
                  let ciphertext_len := ciphertext_len + len
                  let get_tag := lib t7 (EvpCall.CTRL_GCM_GET_TAG tag.length)
                  let t8 := t7 ++ [EvpCall.CTRL_GCM_GET_TAG tag.length]
                  if get_tag.ret ≠ 1 then (none, t8 ++ [EvpCall.CIPHER_CTX_free])
                  else
                    let tag := write_at tag 0 get_tag.out
                    let ciphertext := resize ciphertext ciphertext_len
                    (some (ciphertext ++ tag), t8 ++ [EvpCall.CIPHER_CTX_free])

/-- `decrypt_aes_gcm`: the returned optional and the OpenSSL calls made. -/
def decrypt_aes_gcm (lib : OpenSSL) (ciphertext_with_tag key iv aad : Bytes) :
    Option Bytes × List EvpCall :=
  if key.length ≠ 32 ∨ iv.length ≠ 12 ∨ ciphertext_with_tag.length < 16 then (none, [])
  else
    let ciphertext_len := ciphertext_with_tag.length - 16
    let ciphertext : Bytes := ciphertext_with_tag.take ciphertext_len
    let tag : Bytes := ciphertext_with_tag.drop (ciphertext_with_tag.length - 16)
    let plaintext : Bytes := List.replicate ciphertext_len 0
    let t1 := [EvpCall.CIPHER_CTX_new]
    if (lib [] EvpCall.CIPHER_CTX_new).ret = 0 then (none, t1)
    else
      let t2 := t1 ++ [EvpCall.DecryptInit_ex_cipher]
      if (lib t1 EvpCall.DecryptInit_ex_cipher).ret = 0 then
        (none, t2 ++ [EvpCall.CIPHER_CTX_free])
      else
        let t3 := t2 ++ [EvpCall.CTRL_GCM_SET_IVLEN iv.length]
        if (lib t2 (EvpCall.CTRL_GCM_SET_IVLEN iv.length)).ret = 0 then
          (none, t3 ++ [EvpCall.CIPHER_CTX_free])
        else
          let t4 := t3 ++ [EvpCall.DecryptInit_ex_key_iv key iv]
          if (lib t3 (EvpCall.DecryptInit_ex_key_iv key iv)).ret = 0 then
            (none, t4 ++ [EvpCall.CIPHER_CTX_free])
          else
            let t5 := if aad.isEmpty then t4 else t4 ++ [EvpCall.DecryptUpdate_aad aad]
            if ¬ aad.isEmpty ∧ (lib t4 (EvpCall.DecryptUpdate_aad aad)).ret = 0 then
              (none, t5 ++ [EvpCall.CIPHER_CTX_free])
            else
              let update := lib t5 (EvpCall.DecryptUpdate ciphertext)
              let t6 := t5 ++ [EvpCall.DecryptUpdate ciphertext]
              if update.ret = 0 then (none, t6 ++ [EvpCall.CIPHER_CTX_free])
              else
                let plaintext := write_at plaintext 0 update.out
                let len := update.out.length
                let plaintext_len := len
                let t7 := t6 ++ [EvpCall.CTRL_GCM_SET_TAG tag]
                if (lib t6 (EvpCall.CTRL_GCM_SET_TAG tag)).ret = 0 then
                  (none, t7 ++ [EvpCall.CIPHER_CTX_free])
                else
                  let final := lib t7 EvpCall.DecryptFinal_ex
                  let t8 := t7 ++ [EvpCall.DecryptFinal_ex, EvpCall.CIPHER_CTX_free]
                  let plaintext := write_at plaintext len final.out
                  let len := final.out.length
                  if final.ret > 0 then
                    let plaintext_len := plaintext_len + len
                    (some (resize plaintext plaintext_len), t8)
                  else (none, t8)

/-! ### The two functions cut into stages

The bodies of `encrypt_aes_gcm` and `decrypt_aes_gcm` from a given OpenSSL call
on, as functions of the calls made so far and of the local variables that are
live at that point.  They are used to reason about the two functions one call
at a time. -/

/-- `encrypt_aes_gcm` from `EVP_CIPHER_CTX_ctrl(GET_TAG)` on. -/
def encrypt_from_get_tag (lib : OpenSSL) (t7 : List EvpCall) (ciphertext : Bytes)
    (ciphertext_len : Nat) : Option Bytes × List EvpCall :=
  let tag : Bytes := List.replicate 16 0
  let get_tag := lib t7 (EvpCall.CTRL_GCM_GET_TAG tag.length)
  let t8 := t7 ++ [EvpCall.CTRL_GCM_GET_TAG tag.length]
  if get_tag.ret ≠ 1 then (none, t8 ++ [EvpCall.CIPHER_CTX_free])
  else
    (some (resize ciphertext ciphertext_len ++ write_at tag 0 get_tag.out),
      t8 ++ [EvpCall.CIPHER_CTX_free])

/-- `encrypt_aes_gcm` from `EVP_EncryptFinal_ex` on. -/
def encrypt_from_final (lib : OpenSSL) (t6 : List EvpCall) (ciphertext : Bytes) (len : Nat) :
    Option Bytes × List EvpCall :=
  let final := lib t6 EvpCall.EncryptFinal_ex
  let t7 := t6 ++ [EvpCall.EncryptFinal_ex]
  if final.ret ≠ 1 then (none, t7 ++ [EvpCall.CIPHER_CTX_free])
  else encrypt_from_get_tag lib t7 (write_at ciphertext len final.out) (len + final.out.length)

/-- `encrypt_aes_gcm` from the `EVP_EncryptUpdate` of the plaintext on. -/
def encrypt_from_update (lib : OpenSSL) (t5 : List EvpCall) (plaintext : Bytes) :
    Option Bytes × List EvpCall :=
  let ciphertext : Bytes := List.replicate plaintext.length 0
  let update := lib t5 (EvpCall.EncryptUpdate plaintext)
  let t6 := t5 ++ [EvpCall.EncryptUpdate plaintext]
  if update.ret ≠ 1 then (none, t6 ++ [EvpCall.CIPHER_CTX_free])
  else encrypt_from_final lib t6 (write_at ciphertext 0 update.out) update.out.length

/-- `encrypt_aes_gcm` from the `EVP_EncryptUpdate` of the aad on. -/
def encrypt_from_aad (lib : OpenSSL) (t4 : List EvpCall) (plaintext aad : Bytes) :
    Option Bytes × List EvpCall :=
  let t5 := if aad.isEmpty then t4 else t4 ++ [EvpCall.EncryptUpdate_aad aad]
  if ¬ aad.isEmpty ∧ (lib t4 (EvpCall.EncryptUpdate_aad aad)).ret ≠ 1 then
    (none, t5 ++ [EvpCall.CIPHER_CTX_free])
  else encrypt_from_update lib t5 plaintext

/-- `encrypt_aes_gcm` after the validation of the sizes. -/
def encrypt_from_new (lib : OpenSSL) (plaintext key iv aad : Bytes) :
    Option Bytes × List EvpCall :=
  let t1 := [EvpCall.CIPHER_CTX_new]
  if (lib [] EvpCall.CIPHER_CTX_new).ret = 0 then (none, t1)
  else
    let t2 := t1 ++ [EvpCall.EncryptInit_ex_cipher]
    if (lib t1 EvpCall.EncryptInit_ex_cipher).ret ≠ 1 then
      (none, t2 ++ [EvpCall.CIPHER_CTX_free])
    else
      let t3 := t2 ++ [EvpCall.CTRL_GCM_SET_IVLEN iv.length]
      if (lib t2 (EvpCall.CTRL_GCM_SET_IVLEN iv.length)).ret ≠ 1 then
        (none, t3 ++ [EvpCall.CIPHER_CTX_free])
      else
        let t4 := t3 ++ [EvpCall.EncryptInit_ex_key_iv key iv]
        if (lib t3 (EvpCall.EncryptInit_ex_key_iv key iv)).ret ≠ 1 then
          (none, t4 ++ [EvpCall.CIPHER_CTX_free])
        else encrypt_from_aad lib t4 plaintext aad

/-- `decrypt_aes_gcm` from `EVP_DecryptFinal_ex` on. -/
def decrypt_from_final (lib : OpenSSL) (t7 : List EvpCall) (plaintext : Bytes) (len : Nat) :
    Option Bytes × List EvpCall :=
  let final := lib t7 EvpCall.DecryptFinal_ex
  let t8 := t7 ++ [EvpCall.DecryptFinal_ex, EvpCall.CIPHER_CTX_free]
  if final.ret > 0 then
    (some (resize (write_at plaintext len final.out) (len + final.out.length)), t8)
  else (none, t8)

/-- `decrypt_aes_gcm` from `EVP_CIPHER_CTX_ctrl(SET_TAG)` on. -/
def decrypt_from_set_tag (lib : OpenSSL) (t6 : List EvpCall) (tag plaintext : Bytes)
    (len : Nat) : Option Bytes × List EvpCall :=
  let t7 := t6 ++ [EvpCall.CTRL_GCM_SET_TAG tag]
  if (lib t6 (EvpCall.CTRL_GCM_SET_TAG tag)).ret = 0 then
    (none, t7 ++ [EvpCall.CIPHER_CTX_free])
  else decrypt_from_final lib t7 plaintext len

/-- `decrypt_aes_gcm` from the `EVP_DecryptUpdate` of the ciphertext on. -/
def decrypt_from_update (lib : OpenSSL) (t5 : List EvpCall) (ciphertext tag plaintext : Bytes) :
    Option Bytes × List EvpCall :=
  let update := lib t5 (EvpCall.DecryptUpdate ciphertext)
  let t6 := t5 ++ [EvpCall.DecryptUpdate ciphertext]
  if update.ret = 0 then (none, t6 ++ [EvpCall.CIPHER_CTX_free])
  else decrypt_from_set_tag lib t6 tag (write_at plaintext 0 update.out) update.out.length

/-- `decrypt_aes_gcm` from the `EVP_DecryptUpdate` of the aad on. -/
def decrypt_from_aad (lib : OpenSSL) (t4 : List EvpCall) (ciphertext tag plaintext aad : Bytes) :
    Option Bytes × List EvpCall :=
  let t5 := if aad.isEmpty then t4 else t4 ++ [EvpCall.DecryptUpdate_aad aad]
  if ¬ aad.isEmpty ∧ (lib t4 (EvpCall.DecryptUpdate_aad aad)).ret = 0 then
    (none, t5 ++ [EvpCall.CIPHER_CTX_free])
  else decrypt_from_update lib t5 ciphertext tag plaintext

/-- `decrypt_aes_gcm` after the validation of the sizes and the split of the
input; `plaintext` is the output buffer. -/
def decrypt_from_new (lib : OpenSSL) (ciphertext tag plaintext key iv aad : Bytes) :
    Option Bytes × List EvpCall :=
  let t1 := [EvpCall.CIPHER_CTX_new]
  if (lib [] EvpCall.CIPHER_CTX_new).ret = 0 then (none, t1)
  else
    let t2 := t1 ++ [EvpCall.DecryptInit_ex_cipher]
    if (lib t1 EvpCall.DecryptInit_ex_cipher).ret = 0 then
      (none, t2 ++ [EvpCall.CIPHER_CTX_free])
    else
      let t3 := t2 ++ [EvpCall.CTRL_GCM_SET_IVLEN iv.length]
      if (lib t2 (EvpCall.CTRL_GCM_SET_IVLEN iv.length)).ret = 0 then
        (none, t3 ++ [EvpCall.CIPHER_CTX_free])
      else
        let t4 := t3 ++ [EvpCall.DecryptInit_ex_key_iv key iv]
        if (lib t3 (EvpCall.DecryptInit_ex_key_iv key iv)).ret = 0 then
          (none, t4 ++ [EvpCall.CIPHER_CTX_free])
        else decrypt_from_aad lib t4 ciphertext tag plaintext aad

/-! ### The contract of OpenSSL's AES-256-GCM -/

/-- The calls made on the context before the ciphertext is decrypted. -/
def decryptSetupCalls (key iv aad : Bytes) : List EvpCall :=
  if aad.isEmpty then
    [EvpCall.CIPHER_CTX_new, EvpCall.DecryptInit_ex_cipher,
      EvpCall.CTRL_GCM_SET_IVLEN iv.length, EvpCall.DecryptInit_ex_key_iv key iv]
  else
    [EvpCall.CIPHER_CTX_new, EvpCall.DecryptInit_ex_cipher,
      EvpCall.CTRL_GCM_SET_IVLEN iv.length, EvpCall.DecryptInit_ex_key_iv key iv,
      EvpCall.DecryptUpdate_aad aad]

/-- Every call that `decrypt_aes_gcm` makes before `EVP_DecryptFinal_ex`
succeeds on `lib`, for the given split of the input into ciphertext and tag. -/
def decryptCallsSucceed (lib : OpenSSL) (ciphertext tag key iv aad : Bytes) : Prop :=
  (lib [] EvpCall.CIPHER_CTX_new).ret ≠ 0 ∧
  (lib [EvpCall.CIPHER_CTX_new] EvpCall.DecryptInit_ex_cipher).ret ≠ 0 ∧
  (lib [EvpCall.CIPHER_CTX_new, EvpCall.DecryptInit_ex_cipher]
    (EvpCall.CTRL_GCM_SET_IVLEN iv.length)).ret ≠ 0 ∧
  (lib [EvpCall.CIPHER_CTX_new, EvpCall.DecryptInit_ex_cipher,
    EvpCall.CTRL_GCM_SET_IVLEN iv.length] (EvpCall.DecryptInit_ex_key_iv key iv)).ret ≠ 0 ∧
  (aad.isEmpty = false →
    (lib [EvpCall.CIPHER_CTX_new, EvpCall.DecryptInit_ex_cipher,
      EvpCall.CTRL_GCM_SET_IVLEN iv.length, EvpCall.DecryptInit_ex_key_iv key iv]
      (EvpCall.DecryptUpdate_aad aad)).ret ≠ 0) ∧
  (lib (decryptSetupCalls key iv aad) (EvpCall.DecryptUpdate ciphertext)).ret ≠ 0 ∧
  (lib (decryptSetupCalls key iv aad ++ [EvpCall.DecryptUpdate ciphertext])
    (EvpCall.CTRL_GCM_SET_TAG tag)).ret ≠ 0

instance (lib : OpenSSL) (ciphertext tag key iv aad : Bytes) :
    Decidable (decryptCallsSucceed lib ciphertext tag key iv aad) := by
  unfold decryptCallsSucceed; infer_instance

/-- A stand-in for OpenSSL used as concrete input: every call succeeds, the
update calls give back their input, the tag is `taglen` zero bytes, and
`EVP_DecryptFinal_ex` succeeds exactly when the tag set before it is sixteen
zero bytes. -/
def sampleLib : OpenSSL := fun calls call =>
  match call with
  | EvpCall.EncryptUpdate data => { ret := 1, out := data }
  | EvpCall.DecryptUpdate data => { ret := 1, out := data }
  | EvpCall.CTRL_GCM_GET_TAG taglen => { ret := 1, out := List.replicate taglen 0 }
  | EvpCall.DecryptFinal_ex =>
    if calls.getLast? = some (EvpCall.CTRL_GCM_SET_TAG (List.replicate 16 0)) then
      { ret := 1, out := [] }
    else { ret := 0, out := [] }
  | _ => { ret := 1, out := [] }

/-- The bytes of `"hello"`. -/
def helloBytes : Bytes := [104, 101, 108, 108, 111]

end fintechx_core

/-! ### Auxiliary definitions for the statements of the later sections -/

/-- The six identity fields of a transaction. -/
def Transaction.identity (t : Transaction) :
    String × Transaction.Type × Rat × String × String × String :=
  (t.id, t.type, t.amount, t.currency, t.card_token, t.merchant_id)

/-- A fresh engine with two workers to which the payment `"t1"` of 50.00 USD
was submitted, started and stopped again before any worker took the payment. -/
def sampleStoppedEngine : TransactionProcessor :=
  (((TransactionProcessor.new 2).submitTransaction (samplePayment "t1" 50 "USD" "tok")).start).stop

/-! ## Properties of `pan_utils.cpp` -/

namespace fintechx_core

/-! ### Lemmas on `int` arithmetic -/

theorem to_int_of_range (x : Int) (h0 : -2147483648 ≤ x) (h1 : x ≤ 2147483647) :
    to_int x = x := by
  unfold to_int; omega

theorem to_int_add_left (a b : Int) : to_int (to_int a + b) = to_int (a + b) := by
  unfold to_int; omega

theorem to_int_to_int (a : Int) : to_int (to_int a) = to_int a := by
  unfold to_int; omega

/-- The loop of `luhn_check` goes through the whole string when its length fits
an `int`. -/
theorem luhn_iterations_eq (n : Nat) (h : n ≤ 2147483647) :
    (to_int (to_int (n : Int) - 1) + 1).toNat = n := by
  unfold to_int; omega

/-- The loop of `luhn_check` does not run when the length converts to a negative
`int` other than the least one. -/
theorem luhn_iterations_zero (n : Nat) (h1 : 2147483648 < n) (h2 : n < 4294967296) :
    (to_int (to_int (n : Int) - 1) + 1).toNat = 0 := by
  unfold to_int; omega

/-- Two digits that complete the same sum to an `int` divisible by 10 are
equal, also when the sum has left the range of `int`. -/
theorem to_int_mod_ten_inj (F a b : Int) (ha0 : 0 ≤ a) (ha : a ≤ 9) (hb0 : 0 ≤ b) (hb : b ≤ 9)
    (h1 : to_int (a + F) % 10 = 0) (h2 : to_int (b + F) % 10 = 0) : a = b := by
  unfold to_int at h1 h2
  have e1 := Int.emod_add_ediv (a + F + 2147483648) 4294967296
  have e2 := Int.emod_add_ediv (b + F + 2147483648) 4294967296
  have r1 := Int.emod_nonneg (a + F + 2147483648) (by norm_num : (4294967296 : Int) ≠ 0)
  have r2 := Int.emod_nonneg (b + F + 2147483648) (by norm_num : (4294967296 : Int) ≠ 0)
  have s1 := Int.emod_lt_of_pos (a + F + 2147483648) (by norm_num : (0 : Int) < 4294967296)
  have s2 := Int.emod_lt_of_pos (b + F + 2147483648) (by norm_num : (0 : Int) < 4294967296)
  generalize (a + F + 2147483648) % 4294967296 = w1 at *
  generalize (b + F + 2147483648) % 4294967296 = w2 at *
  generalize (a + F + 2147483648) / 4294967296 = q1 at *
  generalize (b + F + 2147483648) / 4294967296 = q2 at *
  have hq : q2 - q1 = 0 ∨ q2 - q1 = 1 ∨ q2 - q1 = -1 := by omega
  have hw1 := Int.emod_add_ediv (w1 - 2147483648) 10
  have hw2 := Int.emod_add_ediv (w2 - 2147483648) 10
  rw [h1] at hw1
  rw [h2] at hw2
  generalize (w1 - 2147483648) / 10 = f1 at *
  generalize (w2 - 2147483648) / 10 = f2 at *
  rcases hq with h | h | h
  · omega
  · have hf : f2 - f1 = -429496729 ∨ f2 - f1 = -429496730 ∨ f2 - f1 = -429496728 := by omega
    rcases hf with hf | hf | hf <;> omega
  · have hf : f2 - f1 = 429496729 ∨ f2 - f1 = 429496730 ∨ f2 - f1 = 429496728 := by omega
    rcases hf with hf | hf | hf <;> omega

theorem tmod_ten_eq_zero_iff (x : Int) : Int.tmod x 10 = 0 ↔ x % 10 = 0 :=
  ⟨fun h => Int.emod_eq_zero_of_dvd (Int.dvd_of_tmod_eq_zero h),
    fun h => Int.tmod_eq_zero_of_dvd (Int.dvd_of_emod_eq_zero h)⟩

/-! ### Lemmas on the Luhn loop -/

theorem isdigit_iff (c : Char) : isdigit c = true ↔ 48 ≤ c.toNat ∧ c.toNat ≤ 57 := by
  simp [isdigit]

theorem char_to_int_digit (c : Char) (h : isdigit c = true) :
    char_to_int c = (c.toNat : Int) := by
  rw [isdigit_iff] at h
  simp only [char_to_int]
  split_ifs <;> omega

theorem luhn_digit_false (c : Char) (h : isdigit c = true) :
    luhn_digit false c = (c.toNat : Int) - 48 := by
  simp [luhn_digit, char_to_int_digit c h]

theorem luhn_digit_bounds (alternate : Bool) (c : Char) (h : isdigit c = true) :
    0 ≤ luhn_digit alternate c ∧ luhn_digit alternate c ≤ 9 := by
  have hc := char_to_int_digit c h
  rw [isdigit_iff] at h
  cases alternate <;> simp only [luhn_digit, hc] <;> split_ifs <;> omega

theorem luhn_loop_append (l : List Char) :
    ∀ (r : List Char) (sum : Int) (alternate : Bool), to_int sum = sum →
      luhn_loop (l ++ r) l.length sum alternate
        = to_int (sum + luhn_fold alternate l.reverse) := by
  induction l using List.reverseRecOn with
  | nil => intro r sum alternate hs; simp [luhn_loop, luhn_fold, hs]
  | append_singleton l c ih =>
    intro r sum alternate _
    have hget : ((l ++ [c]) ++ r).getD l.length '0' = c := by
      rw [List.getD_eq_getElem?_getD, List.append_assoc,
        List.getElem?_append_right (le_refl _)]
      simp
    rw [List.length_append, List.length_singleton, luhn_loop, hget]
    have hre : (l ++ [c]) ++ r = l ++ (c :: r) := by simp
    rw [hre, ih _ _ _ (to_int_to_int _), List.reverse_append, List.reverse_singleton,
      List.singleton_append, luhn_fold, to_int_add_left, add_assoc]

/-- The loop over a whole string: the unbounded sum, reduced to an `int`. -/
theorem luhn_loop_eq (l : List Char) (alternate : Bool) :
    luhn_loop l l.length 0 alternate = to_int (luhn_fold alternate l.reverse) := by
  simpa using luhn_loop_append l [] 0 alternate rfl

theorem luhn_fold_nonneg (l : List Char) (h : ∀ c ∈ l, isdigit c = true) :
    ∀ alternate : Bool, 0 ≤ luhn_fold alternate l := by
  induction l with
  | nil => intro alternate; simp [luhn_fold]
  | cons c cs ih =>
    intro alternate
    have h1 := (luhn_digit_bounds alternate c (h c (List.mem_cons_self c cs))).1
    have h2 := ih (fun x hx => h x (List.mem_cons_of_mem c hx)) (!alternate)
    simp only [luhn_fold]
    omega

theorem luhn_fold_le (l : List Char) (h : ∀ c ∈ l, isdigit c = true) :
    ∀ alternate : Bool, luhn_fold alternate l ≤ 9 * (l.length : Int) := by
  induction l with
  | nil => intro alternate; simp [luhn_fold]
  | cons c cs ih =>
    intro alternate
    have h1 := (luhn_digit_bounds alternate c (h c (List.mem_cons_self c cs))).2
    have h2 := ih (fun x hx => h x (List.mem_cons_of_mem c hx)) (!alternate)
    simp only [luhn_fold, List.length_cons]
    push_cast
    omega

theorem is_digits_iff (s : String) : is_digits s = true ↔ ∀ c ∈ s.data, isdigit c = true := by
  simp [is_digits, List.all_eq_true]

/-- On a non-empty digit string whose length fits an `int`, `luhn_check` tests
the right-to-left sum reduced to an `int`. -/
theorem luhn_check_eq_to_int (pan : String) (hne : pan.data ≠ []) (hd : is_digits pan = true)
    (hlen : pan.length ≤ 2147483647) :
    luhn_check pan = true ↔ to_int (luhn_fold false pan.data.reverse) % 10 = 0 := by
  have hemp : pan.data.isEmpty = false := by
    cases h : pan.data with
    | nil => exact absurd h hne
    | cons a t => rfl
  have hit : (to_int (to_int (pan.length : Int) - 1) + 1).toNat = pan.data.length :=
    luhn_iterations_eq pan.length hlen
  simp only [luhn_check, hemp, hd, hit, luhn_loop_eq, Bool.not_true,
    Bool.or_self, Bool.false_eq_true, if_false, decide_eq_true_eq]
  exact tmod_ten_eq_zero_iff _

/-- On a non-empty digit string of at most 238609294 characters no sum leaves
the range of `int`, and `luhn_check` tests the right-to-left sum. -/
theorem luhn_check_eq_fold (pan : String) (hne : pan.data ≠ []) (hd : is_digits pan = true)
    (hlen : pan.length ≤ 238609294) :
    luhn_check pan = true ↔ luhn_fold false pan.data.reverse % 10 = 0 := by
  have hmem : ∀ c ∈ pan.data.reverse, isdigit c = true :=
    fun c hc => (is_digits_iff pan).1 hd c (List.mem_reverse.1 hc)
  have hnn := luhn_fold_nonneg _ hmem false
  have hle := luhn_fold_le _ hmem false
  have hl : pan.data.reverse.length = pan.length := List.length_reverse _
  rw [hl] at hle
  rw [luhn_check_eq_to_int pan hne hd (by omega), to_int_of_range _ (by omega) (by omega)]

theorem luhn_check_false_of_empty (pan : String) (h : pan.data = []) : luhn_check pan = false := by
  simp [luhn_check, h]

theorem luhn_check_false_of_not_digits (pan : String) (h : is_digits pan = false) :
    luhn_check pan = false := by
  simp [luhn_check, h]

/-- On a digit string whose length converts to a negative `int` the loop of
`luhn_check` does not run, and the string passes. -/
theorem luhn_check_of_negative_length (pan : String) (hd : is_digits pan = true)
    (h1 : 2147483648 < pan.length) (h2 : pan.length < 4294967296) :
    luhn_check pan = true := by
  have hemp : pan.data.isEmpty = false := by
    cases h : pan.data with
    | nil =>
      have h0 : pan.length = 0 := by simp [String.length, h]
      omega
    | cons a t => rfl
  have hit : (to_int (to_int (pan.length : Int) - 1) + 1).toNat = 0 :=
    luhn_iterations_zero pan.length h1 h2
  simp only [luhn_check, hemp, hd, hit, Bool.not_true, Bool.or_self,
    Bool.false_eq_true, if_false]
  rfl

theorem luhn_fold_eq_enumFrom (l : List Char) (hl : ∀ c ∈ l, isdigit c = true) :
    ∀ (k : Nat) (alternate : Bool), alternate = decide (k % 2 = 1) →
      luhn_fold alternate l = ((l.enumFrom k).map (fun p =>
        let d : Int := (p.2.toNat : Int) - 48
        if p.1 % 2 = 0 then d else if 2 * d > 9 then 2 * d - 9 else 2 * d)).sum := by
  induction l with
  | nil => intro k alternate _; simp [luhn_fold]
  | cons c cs ih =>
    intro k alternate hk
    have hc := char_to_int_digit c (hl c (List.mem_cons_self c cs))
    have hnext : (!alternate) = decide ((k + 1) % 2 = 1) := by
      subst hk
      rcases Nat.mod_two_eq_zero_or_one k with h | h
      · have h1 : (k + 1) % 2 = 1 := by omega
        simp [h, h1]
      · have h1 : (k + 1) % 2 = 0 := by omega
        simp [h, h1]
    rw [luhn_fold, ih (fun x hx => hl x (List.mem_cons_of_mem c hx)) (k + 1) (!alternate) hnext,
      List.enumFrom_cons, List.map_cons, List.sum_cons]
    refine congrArg (· + _) ?_
    subst hk
    rcases Nat.mod_two_eq_zero_or_one k with h | h
    · simp [luhn_digit, h, hc]
    · simp [luhn_digit, h, hc, mul_comm]

theorem luhn_sum_spec_eq_fold (pan : String) (hd : is_digits pan = true) :
    luhn_sum_spec pan = luhn_fold false pan.data.reverse := by
  rw [luhn_fold_eq_enumFrom pan.data.reverse
    (fun c hc => (is_digits_iff pan).1 hd c (List.mem_reverse.1 hc)) 0 false (by simp)]
  rfl

theorem is_digits_concat (p : List Char) (c : Char) (hp : ∀ x ∈ p, isdigit x = true)
    (hc : isdigit c = true) : is_digits ⟨p ++ [c]⟩ = true := by
  rw [is_digits_iff]
  intro x hx
  rcases List.mem_append.1 hx with h | h
  · exact hp x h
  · rw [List.mem_singleton.1 h]; exact hc

/-- The test made by `luhn_check` on a digit string that ends in `c` and whose
length fits an `int`. -/
theorem luhn_check_concat_to_int (p : List Char) (c : Char) (hp : ∀ x ∈ p, isdigit x = true)
    (hc : isdigit c = true) (hlen : p.length + 1 ≤ 2147483647) :
    luhn_check ⟨p ++ [c]⟩ = true ↔
      to_int ((c.toNat : Int) - 48 + luhn_fold true p.reverse) % 10 = 0 := by
  rw [luhn_check_eq_to_int ⟨p ++ [c]⟩ (by simp) (is_digits_concat p c hp hc)
    (by simpa [String.length] using hlen)]
  simp [luhn_fold, luhn_digit_false c hc]

/-- The test made by `luhn_check` on a digit string that ends in `c` and has at
most 238609294 characters. -/
theorem luhn_check_concat (p : List Char) (c : Char) (hp : ∀ x ∈ p, isdigit x = true)
    (hc : isdigit c = true) (hlen : p.length + 1 ≤ 238609294) :
    luhn_check ⟨p ++ [c]⟩ = true ↔
      ((c.toNat : Int) - 48 + luhn_fold true p.reverse) % 10 = 0 := by
  rw [luhn_check_eq_fold ⟨p ++ [c]⟩ (by simp) (is_digits_concat p c hp hc)
    (by simpa [String.length] using hlen)]
  simp [luhn_fold, luhn_digit_false c hc]

theorem toNat_ofNat_digit (k : Nat) (hk : k ≤ 9) :
    (Char.ofNat (48 + k)).toNat = 48 + k := by
  interval_cases k <;> rfl

/-- The sum on which `calculate_luhn_check_digit` decides, for a string whose
length plus one fits an `int`. -/
theorem calculate_luhn_check_digit_eq (p : String) (hlen : p.length + 1 ≤ 2147483647) :
    calculate_luhn_check_digit p =
      Char.ofNat ((if Int.tmod (to_int (luhn_fold true p.data.reverse)) 10 = 0 then 0
        else 10 - Int.tmod (to_int (luhn_fold true p.data.reverse)) 10) + 48).toNat := by
  have hit : (to_int (to_int ((p.push '0').length : Int) - 1) + 1).toNat
      = (p.push '0').data.length :=
    luhn_iterations_eq (p.push '0').length (by rw [String.length_push]; exact hlen)
  have hz : luhn_digit false '0' = 0 := by decide
  have hsum : luhn_loop (p.push '0').data
      (to_int (to_int ((p.push '0').length : Int) - 1) + 1).toNat 0 false
      = to_int (luhn_fold true p.data.reverse) := by
    rw [hit, luhn_loop_eq]
    simp only [String.data_push, List.reverse_append, List.reverse_singleton,
      List.singleton_append, luhn_fold, hz, zero_add, Bool.not_false]
  simp only [calculate_luhn_check_digit, hsum]

/-- The value computed by `calculate_luhn_check_digit` on a digit string of at
most 238609294 characters: the digit `k` that completes the
doubled-from-the-right sum to a multiple of 10. -/
theorem calculate_luhn_check_digit_spec (p : String) (hp : is_digits p = true)
    (hlen : p.length ≤ 238609294) :
    ∃ k : Nat, k ≤ 9 ∧ calculate_luhn_check_digit p = Char.ofNat (48 + k) ∧
      ((k : Int) + luhn_fold true p.data.reverse) % 10 = 0 := by
  have hmem : ∀ c ∈ p.data.reverse, isdigit c = true :=
    fun c hc => (is_digits_iff p).1 hp c (List.mem_reverse.1 hc)
  have hnn := luhn_fold_nonneg _ hmem true
  have hle := luhn_fold_le _ hmem true
  have hl : p.data.reverse.length = p.length := List.length_reverse _
  rw [hl] at hle
  have hmod : Int.tmod (luhn_fold true p.data.reverse) 10
      = luhn_fold true p.data.reverse % 10 := Int.tmod_eq_emod hnn (by norm_num)
  refine ⟨((10 - luhn_fold true p.data.reverse % 10) % 10).toNat, by omega, ?_, by omega⟩
  rw [calculate_luhn_check_digit_eq p (by omega), to_int_of_range _ (by omega) (by omega), hmod]
  congr 1
  split_ifs with h <;> omega

theorem isdigit_ofNat_digit (k : Nat) (hk : k ≤ 9) : isdigit (Char.ofNat (48 + k)) = true := by
  rw [isdigit_iff, toNat_ofNat_digit k hk]
  omega

/-- Appending the computed check digit to a digit string of at most 238609293
characters gives a string that passes `luhn_check`, and no other digit does. -/
theorem luhn_check_push_iff (p : String) (hp : is_digits p = true) (d : Char)
    (hd : isdigit d = true) (hlen : p.length ≤ 238609293) :
    luhn_check (p.push d) = true ↔ d = calculate_luhn_check_digit p := by
  obtain ⟨k, hk, hcd, hsum⟩ := calculate_luhn_check_digit_spec p hp (by omega)
  have hpush : p.push d = ⟨p.data ++ [d]⟩ := String.ext (by simp)
  have hl : p.data.length = p.length := rfl
  rw [hpush, luhn_check_concat p.data d ((is_digits_iff p).1 hp) hd (by omega), hcd]
  rw [isdigit_iff] at hd
  constructor
  · intro h
    have hk' : d.toNat = 48 + k := by omega
    rw [← hk', Char.ofNat_toNat]
  · intro h
    rw [h, toNat_ofNat_digit k hk]
    push_cast
    omega

/-! ### Lemmas on strings of nines -/

theorem nines_length (n : Nat) : (nines n).length = n := by
  simp [nines, String.length]

theorem nines_ne_empty (n : Nat) (h : 0 < n) : nines n ≠ "" := by
  intro h0
  have h1 := nines_length n
  rw [h0] at h1
  have h2 : "".length = 0 := rfl
  omega

theorem isdigit_of_mem_nines (n : Nat) : ∀ c ∈ (nines n).data, isdigit c = true := by
  intro c hc
  rw [List.eq_of_mem_replicate hc]
  decide

theorem is_digits_nines (n : Nat) : is_digits (nines n) = true :=
  (is_digits_iff _).2 (isdigit_of_mem_nines n)

theorem luhn_fold_nines (n : Nat) :
    ∀ alternate : Bool, luhn_fold alternate (List.replicate n '9') = 9 * (n : Int) := by
  induction n with
  | zero => intro alternate; simp [luhn_fold]
  | succ n ih =>
    intro alternate
    have h9 : luhn_digit alternate '9' = 9 := by cases alternate <;> decide
    rw [List.replicate_succ, luhn_fold, ih, h9]
    push_cast
    ring

theorem luhn_fold_reverse_nines (n : Nat) (alternate : Bool) :
    luhn_fold alternate (nines n).data.reverse = 9 * (n : Int) := by
  show luhn_fold alternate (List.replicate n '9').reverse = 9 * (n : Int)
  rw [List.reverse_replicate, luhn_fold_nines]

theorem luhn_sum_spec_nines (n : Nat) : luhn_sum_spec (nines n) = 9 * (n : Int) := by
  rw [luhn_sum_spec_eq_fold _ (is_digits_nines n), luhn_fold_reverse_nines]

theorem luhn_check_nines (n : Nat) (h0 : 0 < n) (h : n ≤ 2147483647) :
    luhn_check (nines n) = true ↔ to_int (9 * (n : Int)) % 10 = 0 := by
  have hne : (nines n).data ≠ [] := fun h1 => nines_ne_empty n h0 (String.ext h1)
  rw [luhn_check_eq_to_int (nines n) hne (is_digits_nines n) (by rw [nines_length]; exact h),
    luhn_fold_reverse_nines]

theorem calculate_luhn_check_digit_nines (n : Nat) (h : n + 1 ≤ 2147483647) :
    calculate_luhn_check_digit (nines n) =
      Char.ofNat ((if Int.tmod (to_int (9 * (n : Int))) 10 = 0 then 0
        else 10 - Int.tmod (to_int (9 * (n : Int))) 10) + 48).toNat := by
  rw [calculate_luhn_check_digit_eq (nines n) (by rw [nines_length]; exact h),
    luhn_fold_reverse_nines]


theorem nines_getLast? (n : Nat) (h : 0 < n) : (nines n).data.getLast? = some '9' := by
  show (List.replicate n '9').getLast? = some '9'
  rw [List.getLast?_replicate, if_neg (by omega)]

/-- A string of between `2^31 + 1` and `2^32 - 1` nines passes `luhn_check`
whatever digit replaces its last character. -/
theorem luhn_check_nines_dropLast (n : Nat) (d : Char) (hd : isdigit d = true)
    (h1 : 2147483648 < n) (h2 : n < 4294967296) :
    luhn_check ⟨(nines n).data.dropLast ++ [d]⟩ = true := by
  have hlen : (⟨(nines n).data.dropLast ++ [d]⟩ : String).length = n := by
    show ((List.replicate n '9').dropLast ++ [d]).length = n
    rw [List.length_append, List.length_dropLast, List.length_replicate, List.length_singleton]
    omega
  exact luhn_check_of_negative_length _
    (is_digits_concat _ d
      (fun x hx => isdigit_of_mem_nines n x (List.dropLast_subset _ hx)) hd)
    (by rw [hlen]; exact h1) (by rw [hlen]; exact h2)

theorem is_digits_eq_false_iff (s : String) :
    is_digits s = false ↔ ∃ c ∈ s.data, isdigit c = false := by
  rw [← Bool.not_eq_true, is_digits_iff]
  simp

theorem luhn_check_push_not_digit (p : String) (c : Char) (hc : isdigit c = false) :
    luhn_check (p.push c) = false :=
  luhn_check_false_of_not_digits _
    ((is_digits_eq_false_iff _).2 ⟨c, by rw [String.data_push]; simp, hc⟩)

/-! ### Lemmas on PAN synthesis -/

theorem to_string_digit : ∀ d : Fin 10,
    (to_string d.val).data = [Char.ofNat (48 + d.val)] := by
  decide

/-- The string built by the digit-drawing loop of `generate_pan`: the prefix
followed by `n` digits. -/
theorem fill_loop_spec (draws : Nat → Fin 10) (pfx : String) (n : Nat) :
    ∃ ds : List Char,
      ((List.range n).foldl (fun acc i => acc ++ to_string (draws i).val) pfx).data
        = pfx.data ++ ds ∧ ds.length = n ∧ ∀ c ∈ ds, isdigit c = true := by
  induction n with
  | zero => exact ⟨[], by simp, rfl, by simp⟩
  | succ n ih =>
    obtain ⟨ds, h1, h2, h3⟩ := ih
    refine ⟨ds ++ [Char.ofNat (48 + (draws n).val)], ?_, by simp [h2], ?_⟩
    · rw [List.range_succ, List.foldl_concat, String.data_append, h1, to_string_digit,
        List.append_assoc]
    · intro c hc
      rcases List.mem_append.1 hc with h | h
      · exact h3 c h
      · rw [List.mem_singleton.1 h]
        exact isdigit_ofNat_digit _ (by have := (draws n).isLt; omega)

/-- On an input that passes the guard, `generate_pan` returns the string built
by the digit-drawing loop followed by the computed check character. -/
theorem generate_pan_of_valid (draws : Nat → Fin 10) (pfx : String) (length : Int)
    (hv : ¬ pan_input_invalid pfx length) :
    generate_pan draws pfx length =
      some (((List.range (length - (pfx.length : Int) - 1).toNat).foldl
        (fun acc i => acc ++ to_string (draws i).val) pfx).push
        (calculate_luhn_check_digit ((List.range (length - (pfx.length : Int) - 1).toNat).foldl
          (fun acc i => acc ++ to_string (draws i).val) pfx))) := by
  have hv' := hv
  simp only [pan_input_invalid, not_or, not_le, ge_iff_le, not_not] at hv'
  have hrem : ¬ (length - (pfx.length : Int) - 1 < 0) := by omega
  have hg : ¬ (length ≤ 0 ∨ (pfx.length : Int) ≥ length ∨ ¬ (is_digits pfx = true)) := hv
  simp only [generate_pan, hg, hrem, if_false]

/-- On an input that passes the guard and asks for at most 238609294
characters, `generate_pan` returns a string of `length` digits that starts with
the prefix and passes `luhn_check`. -/
theorem generate_pan_spec (draws : Nat → Fin 10) (pfx : String) (length : Int)
    (hv : ¬ pan_input_invalid pfx length) (hmax : length ≤ 238609294) :
    ∃ pan : String, generate_pan draws pfx length = some pan ∧
      (pan.length : Int) = length ∧ is_digits pan = true ∧ pfx.data <+: pan.data ∧
      luhn_check pan = true := by
  have hv' := hv
  simp only [pan_input_invalid, not_or, not_le, ge_iff_le, not_not] at hv'
  obtain ⟨hlen, hpl, hd⟩ := hv'
  obtain ⟨ds, h1, h2, h3⟩ := fill_loop_spec draws pfx (length - (pfx.length : Int) - 1).toNat
  have hpl' : pfx.data.length = pfx.length := rfl
  have hpart : is_digits ((List.range (length - (pfx.length : Int) - 1).toNat).foldl
      (fun acc i => acc ++ to_string (draws i).val) pfx) = true := by
    rw [is_digits_iff, h1]
    intro c hc
    rcases List.mem_append.1 hc with h | h
    · exact (is_digits_iff pfx).1 hd c h
    · exact h3 c h
  have hpartlen : (((List.range (length - (pfx.length : Int) - 1).toNat).foldl
      (fun acc i => acc ++ to_string (draws i).val) pfx).length : Int) = length - 1 := by
    show (((_ : String).data.length : Nat) : Int) = length - 1
    rw [h1, List.length_append, h2, hpl']
    push_cast
    omega
  obtain ⟨k, hk, hcd, -⟩ := calculate_luhn_check_digit_spec _ hpart (by omega)
  have hcdd : isdigit (calculate_luhn_check_digit ((List.range
      (length - (pfx.length : Int) - 1).toNat).foldl
      (fun acc i => acc ++ to_string (draws i).val) pfx)) = true := by
    rw [hcd]; exact isdigit_ofNat_digit k hk
  refine ⟨_, generate_pan_of_valid draws pfx length hv, ?_, ?_, ?_, ?_⟩
  · rw [String.length_push]
    push_cast
    omega
  · rw [is_digits_iff, String.data_push]
    intro c hc
    rcases List.mem_append.1 hc with h | h
    · exact (is_digits_iff _).1 hpart c h
    · rw [List.mem_singleton.1 h]; exact hcdd
  · rw [String.data_push, h1, List.append_assoc]
    exact List.prefix_append _ _
  · exact (luhn_check_push_iff _ hpart _ hcdd (by omega)).2 rfl

theorem generate_pan_none_iff (draws : Nat → Fin 10) (pfx : String) (length : Int) :
    generate_pan draws pfx length = none ↔ pan_input_invalid pfx length := by
  constructor
  · intro h
    by_contra hv
    rw [generate_pan_of_valid draws pfx length hv] at h
    exact Option.noConfusion h
  · intro h
    have hg : length ≤ 0 ∨ (pfx.length : Int) ≥ length ∨ ¬ (is_digits pfx = true) := h
    simp only [generate_pan, hg, if_true]

/-- With a prefix one character short of the requested length no digit is
drawn: the result is the prefix followed by the computed check character. -/
theorem generate_pan_no_draws (draws : Nat → Fin 10) (pfx : String)
    (hd : is_digits pfx = true) :
    generate_pan draws pfx ((pfx.length : Int) + 1)
      = some (pfx.push (calculate_luhn_check_digit pfx)) := by
  have hv : ¬ pan_input_invalid pfx ((pfx.length : Int) + 1) := by
    simp only [pan_input_invalid, hd, not_true_eq_false, or_false, not_or, not_le, ge_iff_le]
    omega
  have hr : ((pfx.length : Int) + 1 - (pfx.length : Int) - 1).toNat = 0 := by omega
  rw [generate_pan_of_valid draws pfx _ hv, hr]
  rfl

/-- The accumulation loop of `generate_pan_batch` when every call of
`generate_pan` succeeds with a result satisfying `P`. -/
theorem batch_loop_spec (gen : Nat → Option String) (P : String → Prop)
    (hgen : ∀ i, ∃ pan, gen i = some pan ∧ P pan) (n : Nat) :
    ((List.range n).foldl
      (fun batch i =>
        match gen i with
        | some pan => batch ++ [pan]
        | none => batch) ([] : List String)).length = n ∧
    ∀ pan ∈ (List.range n).foldl
      (fun batch i =>
        match gen i with
        | some pan => batch ++ [pan]
        | none => batch) ([] : List String), P pan := by
  induction n with
  | zero => simp
  | succ n ih =>
    obtain ⟨pan, hp, hP⟩ := hgen n
    rw [List.range_succ, List.foldl_concat]
    simp only [hp]
    refine ⟨by simp [ih.1], ?_⟩
    intro x hx
    rcases List.mem_append.1 hx with h | h
    · exact ih.2 x h
    · rw [List.mem_singleton.1 h]; exact hP

/-- A batch of one: the list that holds the result of the single call of
`generate_pan`. -/
theorem generate_pan_batch_one (draws : Nat → Nat → Fin 10) (pfx : String) (length : Int)
    (pan : String) (h : generate_pan (draws 0) pfx length = some pan) :
    generate_pan_batch draws pfx length 1 = [pan] := by
  have hv : ¬ pan_input_invalid pfx length := by
    intro hv
    rw [(generate_pan_none_iff (draws 0) pfx length).2 hv] at h
    exact Option.noConfusion h
  have hg : ¬ ((1 : Int) ≤ 0 ∨ length ≤ 0 ∨ (pfx.length : Int) ≥ length ∨
      ¬ (is_digits pfx = true)) := by
    rintro (h | h)
    · omega
    · exact hv h
  have h1 : (1 : Int).toNat = 1 := rfl
  simp only [generate_pan_batch, hg, if_false, h1, List.range_succ, List.range_zero,
    List.nil_append, List.foldl_cons, List.foldl_nil, h]

theorem pan_input_invalid_iff (pfx : String) (length : Int) :
    pan_input_invalid pfx length ↔
      (length ≤ 0 ∨ (∃ c ∈ pfx.data, isdigit c = false) ∨ (pfx.length : Int) ≥ length) := by
  rw [pan_input_invalid, Bool.not_eq_true, is_digits_eq_false_iff]
  constructor
  · rintro (h | h | h)
    · exact Or.inl h
    · exact Or.inr (Or.inr h)
    · exact Or.inr (Or.inl h)
  · rintro (h | h | h)
    · exact Or.inl h
    · exact Or.inr (Or.inr h)
    · exact Or.inr (Or.inl h)

theorem pan_input_valid (pfx : String) (length : Int)
    (hd : ∀ c ∈ pfx.data, isdigit c = true) (hlen : 0 < length)
    (hpl : (pfx.length : Int) < length) : ¬ pan_input_invalid pfx length := by
  rw [pan_input_invalid, (is_digits_iff pfx).2 hd]
  simp only [not_true_eq_false, or_false, not_or, not_le, ge_iff_le]
  exact ⟨hlen, hpl⟩

/-- After 238609300 nines the computed check character is `'@'`: the sum
2147483700 is stored in the `int` as -2147483596, whose remainder is -6. -/
theorem calculate_luhn_check_digit_long_nines :
    calculate_luhn_check_digit (nines 238609300) = '@' := by
  rw [calculate_luhn_check_digit_nines 238609300 (by decide)]
  rfl

/-! ### The claims on `pan_utils.cpp` -/

/-- Counterexample to C1 as stated: with the prefix of 238609300 nines and the
length 238609301, `generate_pan` returns the prefix followed by `'@'`, which is
not a decimal digit, and `luhn_check` rejects the result. -/
theorem generate_pan_long_prefix_not_valid :
    (∀ c ∈ (nines 238609300).data, isdigit c = true) ∧
    (0 : Int) < 238609301 ∧ ((nines 238609300).length : Int) < 238609301 ∧
    generate_pan (fun _ => 0) (nines 238609300) 238609301
      = some ((nines 238609300).push '@') ∧
    isdigit '@' = false ∧
    luhn_check ((nines 238609300).push '@') = false := by
  have h := generate_pan_no_draws (fun _ => 0) (nines 238609300) (is_digits_nines _)
  have e : (((nines 238609300).length : Nat) : Int) + 1 = 238609301 := by
    rw [nines_length]; rfl
  rw [e, calculate_luhn_check_digit_long_nines] at h
  refine ⟨isdigit_of_mem_nines _, by decide, ?_, h, by decide,
    luhn_check_push_not_digit _ _ (by decide)⟩
  rw [nines_length]
  decide

/-- C1, with the length bounded: for every digit-only prefix, every length with
`0 < length ≤ 238609294` and prefix length `< length`, and every outcome of the
random digit draws, `generate_pan` returns a value: a string of exactly
`length` characters, all decimal digits, that begins with the prefix and for
which `luhn_check` returns true. -/
theorem generate_pan_correct (draws : Nat → Fin 10) (pfx : String) (length : Int)
    (hd : ∀ c ∈ pfx.data, isdigit c = true) (hlen : 0 < length)
    (hmax : length ≤ 238609294) (hpl : (pfx.length : Int) < length) :
    ∃ pan : String, generate_pan draws pfx length = some pan ∧
      (pan.length : Int) = length ∧ (∀ c ∈ pan.data, isdigit c = true) ∧
      pfx.data <+: pan.data ∧ luhn_check pan = true := by
  obtain ⟨pan, h1, h2, h3, h4, h5⟩ :=
    generate_pan_spec draws pfx length (pan_input_valid pfx length hd hlen hpl) hmax
  exact ⟨pan, h1, h2, (is_digits_iff pan).1 h3, h4, h5⟩

/-- Witness of C1: `generate_pan("4", 16)` when every draw gives 3. -/
theorem generate_pan_correct_witness :
    ∃ pan : String, generate_pan (fun _ => 3) "4" 16 = some pan ∧
      (pan.length : Int) = 16 ∧ (∀ c ∈ pan.data, isdigit c = true) ∧
      "4".data <+: pan.data ∧ luhn_check pan = true :=
  generate_pan_correct (fun _ => 3) "4" 16 (by decide) (by decide) (by decide) (by decide)

/-- Counterexample to C2 as stated: the string of 238609300 nines is a
non-empty digit string whose Luhn sum 2147483700 is divisible by 10, and
`luhn_check` returns false on it: the `int` holding the sum has become
-2147483596. -/
theorem luhn_check_rejects_divisible_sum :
    nines 238609300 ≠ "" ∧ (∀ c ∈ (nines 238609300).data, isdigit c = true) ∧
    luhn_sum_spec (nines 238609300) = 2147483700 ∧ 10 ∣ luhn_sum_spec (nines 238609300) ∧
    luhn_check (nines 238609300) = false := by
  have hs : luhn_sum_spec (nines 238609300) = 2147483700 := by
    rw [luhn_sum_spec_nines]; rfl
  refine ⟨nines_ne_empty _ (by decide), isdigit_of_mem_nines _, hs, ?_, ?_⟩
  · rw [hs]; decide
  · rw [← Bool.not_eq_true, luhn_check_nines 238609300 (by decide) (by decide)]
    decide

/-- C2, with the length bounded: for every non-empty string of at most
238609294 decimal digits, `luhn_check` returns true if and only if the Luhn sum
(rightmost digit and every second digit after it unchanged, the others doubled
with 9 subtracted from a doubled value above 9, everything added up) is
divisible by 10. -/
theorem luhn_check_iff_luhn_sum (pan : String) (hne : pan ≠ "")
    (hd : ∀ c ∈ pan.data, isdigit c = true) (hlen : pan.length ≤ 238609294) :
    luhn_check pan = true ↔ 10 ∣ luhn_sum_spec pan := by
  rw [luhn_check_eq_fold pan (fun h => hne (String.ext h)) ((is_digits_iff pan).2 hd) hlen,
    luhn_sum_spec_eq_fold pan ((is_digits_iff pan).2 hd), Int.dvd_iff_emod_eq_zero]

/-- Witness of C2: the two fixtures, `"4539148803436467"` passing with a sum
divisible by 10 and `"4539148803436468"` failing with a sum that is not. -/
theorem luhn_check_iff_luhn_sum_witness :
    (luhn_check "4539148803436467" = true ∧ 10 ∣ luhn_sum_spec "4539148803436467") ∧
    (luhn_check "4539148803436468" = false ∧ ¬ 10 ∣ luhn_sum_spec "4539148803436468") :=
  ⟨⟨by decide,
      (luhn_check_iff_luhn_sum "4539148803436467" (by decide) (by decide) (by decide)).1
        (by decide)⟩,
    ⟨by decide, fun h =>
      absurd ((luhn_check_iff_luhn_sum "4539148803436468" (by decide) (by decide)
        (by decide)).2 h) (by decide)⟩⟩

/-- C3: `luhn_check` returns false for the empty string and for every string
that contains at least one character that is not a decimal digit. -/
theorem luhn_check_rejects (pan : String)
    (h : pan = "" ∨ ∃ c ∈ pan.data, isdigit c = false) : luhn_check pan = false := by
  rcases h with h | h
  · exact luhn_check_false_of_empty pan (by rw [h])
  · exact luhn_check_false_of_not_digits pan ((is_digits_eq_false_iff pan).2 h)

/-- Witness of C3: the empty string and `"12a4"`. -/
theorem luhn_check_rejects_witness :
    luhn_check "" = false ∧ luhn_check "12a4" = false :=
  ⟨luhn_check_rejects "" (Or.inl rfl),
    luhn_check_rejects "12a4" (Or.inr ⟨'a', by decide, by decide⟩)⟩

/-- C4: `generate_pan` returns no value if and only if `length ≤ 0`, or the
prefix contains a non-digit character, or the prefix length is `≥ length`; in
every other case it returns a value; `generate_pan("4", 1)` returns no value. -/
theorem generate_pan_none_iff_invalid (draws : Nat → Fin 10) (pfx : String) (length : Int) :
    (generate_pan draws pfx length = none ↔
      (length ≤ 0 ∨ (∃ c ∈ pfx.data, isdigit c = false) ∨ (pfx.length : Int) ≥ length)) ∧
    ((generate_pan draws pfx length).isSome = true ↔
      ¬ (length ≤ 0 ∨ (∃ c ∈ pfx.data, isdigit c = false) ∨ (pfx.length : Int) ≥ length)) ∧
    generate_pan draws "4" 1 = none := by
  have h := (generate_pan_none_iff draws pfx length).trans (pan_input_invalid_iff pfx length)
  refine ⟨h, ?_, (generate_pan_none_iff draws "4" 1).2 (by decide)⟩
  rw [← h, ← Option.not_isSome_iff_eq_none, not_not]

/-- Counterexample to C5 as stated: the string of 3000000000 nines passes
`luhn_check`, and so does the string obtained from it by putting `8` in the last
position: the length converts to a negative `int` and the loop does not run. -/
theorem luhn_check_long_string_not_sensitive :
    (∀ c ∈ (nines 3000000000).data, isdigit c = true) ∧
    luhn_check (nines 3000000000) = true ∧ isdigit '8' = true ∧
    (nines 3000000000).data.getLast? ≠ some '8' ∧
    luhn_check ⟨(nines 3000000000).data.dropLast ++ ['8']⟩ = true := by
  refine ⟨isdigit_of_mem_nines _, ?_, by decide, ?_,
    luhn_check_nines_dropLast 3000000000 '8' (by decide) (by decide) (by decide)⟩
  · exact luhn_check_of_negative_length _ (is_digits_nines _)
      (by rw [nines_length]; decide) (by rw [nines_length]; decide)
  · rw [nines_getLast? 3000000000 (by decide)]
    decide

/-- C5 (mod-10 sensitivity), with the length bounded: for every digit-only
string `s` of at most 2147483647 characters with `luhn_check s = true`,
replacing the final digit of `s` by any digit other than it yields a string for
which `luhn_check` is false. -/
theorem luhn_check_last_digit_sensitive (s : String) (d : Char)
    (hs : ∀ c ∈ s.data, isdigit c = true) (hlen : s.length ≤ 2147483647)
    (hcheck : luhn_check s = true) (hd : isdigit d = true)
    (hne : s.data.getLast? ≠ some d) :
    luhn_check ⟨s.data.dropLast ++ [d]⟩ = false := by
  have hnonempty : s.data ≠ [] := by
    intro h
    rw [luhn_check_false_of_empty s h] at hcheck
    exact Bool.noConfusion hcheck
  have hsplit : s.data.dropLast ++ [s.data.getLast hnonempty] = s.data :=
    List.dropLast_append_getLast hnonempty
  have hp : ∀ x ∈ s.data.dropLast, isdigit x = true :=
    fun x hx => hs x (List.dropLast_subset _ hx)
  have hlast : isdigit (s.data.getLast hnonempty) = true :=
    hs _ (List.getLast_mem hnonempty)
  have hs' : s = ⟨s.data.dropLast ++ [s.data.getLast hnonempty]⟩ := String.ext hsplit.symm
  have hl : s.data.dropLast.length + 1 ≤ 2147483647 := by
    have h0 : s.data.length = s.length := rfl
    have h1 : 0 < s.data.length := List.length_pos.2 hnonempty
    rw [List.length_dropLast]
    omega
  have h1 := (luhn_check_concat_to_int s.data.dropLast _ hp hlast hl).1 (hs' ▸ hcheck)
  rw [← Bool.not_eq_true, luhn_check_concat_to_int s.data.dropLast d hp hd hl]
  intro h2
  apply hne
  rw [List.getLast?_eq_getLast _ hnonempty]
  rw [isdigit_iff] at hd hlast
  have hto : (s.data.getLast hnonempty).toNat = d.toNat := by
    have h := to_int_mod_ten_inj _ _ _ (by omega) (by omega) (by omega) (by omega) h1 h2
    omega
  rw [← Char.ofNat_toNat (s.data.getLast hnonempty), hto, Char.ofNat_toNat]

/-- Witness of C5: `"4539148803436467"` passes; with `8` in the last position
it fails. -/
theorem luhn_check_last_digit_sensitive_witness :
    luhn_check "4539148803436467" = true ∧ luhn_check "4539148803436468" = false :=
  ⟨by decide,
    luhn_check_last_digit_sensitive "4539148803436467" '8' (by decide) (by decide)
      (by decide) (by decide) (by decide)⟩

/-- Counterexample to C6 as stated: with the prefix of 238609300 nines, the
length 238609301 and the count 1, `generate_pan_batch` returns the one string
made of the prefix followed by `'@'`, which is not a decimal digit, and
`luhn_check` rejects that string. -/
theorem generate_pan_batch_long_prefix_not_valid :
    (∀ c ∈ (nines 238609300).data, isdigit c = true) ∧
    (0 : Int) < 238609301 ∧ ((nines 238609300).length : Int) < 238609301 ∧ (0 : Int) < 1 ∧
    generate_pan_batch (fun _ _ => 0) (nines 238609300) 238609301 1
      = [(nines 238609300).push '@'] ∧
    isdigit '@' = false ∧
    luhn_check ((nines 238609300).push '@') = false := by
  have h := generate_pan_no_draws (fun _ => 0) (nines 238609300) (is_digits_nines _)
  have e : (((nines 238609300).length : Nat) : Int) + 1 = 238609301 := by
    rw [nines_length]; rfl
  rw [e, calculate_luhn_check_digit_long_nines] at h
  refine ⟨isdigit_of_mem_nines _, by decide, ?_, by decide,
    generate_pan_batch_one (fun _ _ => 0) _ _ _ h, by decide,
    luhn_check_push_not_digit _ _ (by decide)⟩
  rw [nines_length]
  decide

/-- C6, with the length bounded: for every valid input (digit-only prefix,
`0 < length ≤ 238609294`, prefix length `< length`, `count > 0`) and every
outcome of the random draws, `generate_pan_batch` returns a list of exactly
`count` strings, each of exactly `length` digits, beginning with the prefix and
passing `luhn_check`. -/
theorem generate_pan_batch_correct (draws : Nat → Nat → Fin 10) (pfx : String)
    (length count : Int) (hd : ∀ c ∈ pfx.data, isdigit c = true) (hlen : 0 < length)
    (hmax : length ≤ 238609294) (hpl : (pfx.length : Int) < length) (hcount : 0 < count) :
    ((generate_pan_batch draws pfx length count).length : Int) = count ∧
    ∀ pan ∈ generate_pan_batch draws pfx length count,
      (pan.length : Int) = length ∧ (∀ c ∈ pan.data, isdigit c = true) ∧
      pfx.data <+: pan.data ∧ luhn_check pan = true := by
  have hv := pan_input_valid pfx length hd hlen hpl
  have hg : ¬ (count ≤ 0 ∨ length ≤ 0 ∨ (pfx.length : Int) ≥ length ∨
      ¬ (is_digits pfx = true)) := by
    rintro (h | h)
    · omega
    · exact hv h
  have hloop := batch_loop_spec (fun i => generate_pan (draws i) pfx length)
    (fun pan => (pan.length : Int) = length ∧ (∀ c ∈ pan.data, isdigit c = true) ∧
      pfx.data <+: pan.data ∧ luhn_check pan = true)
    (fun i => by
      obtain ⟨pan, h1, h2, h3, h4, h5⟩ := generate_pan_spec (draws i) pfx length hv hmax
      exact ⟨pan, h1, h2, (is_digits_iff pan).1 h3, h4, h5⟩)
    count.toNat
  simp only [generate_pan_batch, hg, if_false]
  refine ⟨?_, hloop.2⟩
  rw [hloop.1]
  omega

/-- Witness of C6: three PANs of length 16 with prefix `"4"`, the draws of the
`k`-th generator all being `k mod 10`. -/
theorem generate_pan_batch_correct_witness :
    ((generate_pan_batch (fun k _ => Fin.ofNat k) "4" 16 3).length : Int) = 3 ∧
    ∀ pan ∈ generate_pan_batch (fun k _ => Fin.ofNat k) "4" 16 3,
      (pan.length : Int) = 16 ∧ (∀ c ∈ pan.data, isdigit c = true) ∧
      "4".data <+: pan.data ∧ luhn_check pan = true :=
  generate_pan_batch_correct (fun k _ => Fin.ofNat k) "4" 16 3 (by decide) (by decide)
    (by decide) (by decide) (by decide)

/-- C7: `generate_pan_batch` returns the empty list exactly when `count ≤ 0`, or
`length ≤ 0`, or the prefix is not all digits, or the prefix length is
`≥ length`; that is, exactly on the inputs on which `generate_pan` returns no
value, plus every non-positive count. -/
theorem generate_pan_batch_nil_iff (draws : Nat → Nat → Fin 10) (pfx : String)
    (length count : Int) :
    (generate_pan_batch draws pfx length count = [] ↔
      (count ≤ 0 ∨ length ≤ 0 ∨ (∃ c ∈ pfx.data, isdigit c = false) ∨
        (pfx.length : Int) ≥ length)) ∧
    (∀ d : Nat → Fin 10, generate_pan_batch draws pfx length count = [] ↔
      (count ≤ 0 ∨ generate_pan d pfx length = none)) := by
  have key : generate_pan_batch draws pfx length count = [] ↔
      (count ≤ 0 ∨ pan_input_invalid pfx length) := by
    constructor
    · intro h
      by_contra hn
      rw [not_or] at hn
      have hloop := batch_loop_spec (fun i => generate_pan (draws i) pfx length)
        (fun _ => True)
        (fun i => ⟨_, generate_pan_of_valid (draws i) pfx length hn.2, trivial⟩)
        count.toNat
      have hg : ¬ (count ≤ 0 ∨ length ≤ 0 ∨ (pfx.length : Int) ≥ length ∨
          ¬ (is_digits pfx = true)) := by
        rintro (h | h)
        · exact hn.1 h
        · exact hn.2 h
      simp only [generate_pan_batch, hg, if_false] at h
      have hlen := hloop.1
      rw [h, List.length_nil] at hlen
      omega
    · intro h
      have hg : count ≤ 0 ∨ length ≤ 0 ∨ (pfx.length : Int) ≥ length ∨
          ¬ (is_digits pfx = true) := h
      simp only [generate_pan_batch, hg, if_true]
  refine ⟨?_, fun d => ?_⟩
  · rw [key, pan_input_invalid_iff]
  · rw [key, generate_pan_none_iff]

end fintechx_core

/-! ## Properties of the router -/

open fintechx_core

theorem UnorderedMap.find_assign_self {V : Type} (m : UnorderedMap V) (key : String) (value : V) :
    (m.assign key value).find key = some value := by
  induction m with
  | nil => simp [UnorderedMap.assign, UnorderedMap.find]
  | cons kv rest ih =>
    obtain ⟨k, v⟩ := kv
    by_cases h : k = key
    · simp [UnorderedMap.assign, UnorderedMap.find, h]
    · simp [UnorderedMap.assign, UnorderedMap.find, h, ih]

theorem UnorderedMap.find_assign_other {V : Type} (m : UnorderedMap V) (key other : String)
    (value : V) (hne : other ≠ key) :
    (m.assign key value).find other = m.find other := by
  induction m with
  | nil => simp [UnorderedMap.assign, UnorderedMap.find, Ne.symm hne]
  | cons kv rest ih =>
    obtain ⟨k, v⟩ := kv
    by_cases h : k = key
    · subst h
      simp [UnorderedMap.assign, UnorderedMap.find, Ne.symm hne]
    · by_cases h' : k = other
      · subst h'
        simp [UnorderedMap.assign, UnorderedMap.find, hne]
      · simp [UnorderedMap.assign, UnorderedMap.find, h, h', ih]

/-- The search finds a position exactly when the pattern is a substring. -/
theorem find_from_ne_none_iff (pattern s : List Char) :
    ∀ pos : Nat, find_from pattern s pos ≠ none ↔ pattern <:+: s := by
  induction s with
  | nil =>
    intro pos
    cases pattern with
    | nil => simp [find_from]
    | cons a t => simp [find_from, List.isPrefixOf]
  | cons c cs ih =>
    intro pos
    rw [find_from, List.infix_cons_iff]
    by_cases h : pattern.isPrefixOf (c :: cs) = true
    · simp only [h, if_true]
      exact ⟨fun _ => Or.inl (List.isPrefixOf_iff_prefix.1 h), fun _ => by simp⟩
    · simp only [h]
      rw [if_neg (by simp), ih (pos + 1)]
      constructor
      · exact fun h' => Or.inr h'
      · rintro (h' | h')
        · exact absurd (List.isPrefixOf_iff_prefix.2 h') h
        · exact h'

theorem string_find_ne_none_iff (s pattern : String) :
    string_find s pattern ≠ none ↔ pattern.data <:+: s.data :=
  find_from_ne_none_iff pattern.data s.data 0

/-- The decision made by `extractCardBrand`, in terms of the substrings of the
token. -/
theorem TransactionRouter.extractCardBrand_eq (cardToken : String) :
    TransactionRouter.extractCardBrand cardToken =
      if "visa".data <:+: cardToken.data then "visa"
      else if "mc".data <:+: cardToken.data then "mastercard"
      else if "amex".data <:+: cardToken.data then "amex"
      else "unknown" := by
  simp only [TransactionRouter.extractCardBrand, string_find_ne_none_iff]

/-! ### The claims on the router -/

/-- C8: `getProcessorForTransaction` returns the currency table's entry for the
transaction's currency if there is one; otherwise the brand table's entry for
the brand inferred from `card_token` if there is one; otherwise
`"default-processor"`.  With routes EUR → european-processor and
visa → visa-processor, currency EUR and token `"visa-xxx"` give the EUR route. -/
theorem getProcessorForTransaction_lookup_order (r : TransactionRouter) (t : Transaction) :
    (∀ p, r.currencyRoutes.find t.currency = some p →
      r.getProcessorForTransaction t = p) ∧
    (r.currencyRoutes.find t.currency = none →
      ∀ p, r.cardBrandRoutes.find (TransactionRouter.extractCardBrand t.card_token) = some p →
        r.getProcessorForTransaction t = p) ∧
    (r.currencyRoutes.find t.currency = none →
      r.cardBrandRoutes.find (TransactionRouter.extractCardBrand t.card_token) = none →
        r.getProcessorForTransaction t = "default-processor") ∧
    ((TransactionRouter.new.addRoute "EUR" "european-processor").addCardBrandRoute
        "visa" "visa-processor").getProcessorForTransaction
      { t with currency := "EUR", card_token := "visa-xxx" } = "european-processor" := by
  refine ⟨?_, ?_, ?_, ?_⟩
  · intro p h
    simp [TransactionRouter.getProcessorForTransaction, h]
  · intro h p h'
    simp [TransactionRouter.getProcessorForTransaction, h, h']
  · intro h h'
    simp [TransactionRouter.getProcessorForTransaction, h, h']
  · rfl

/-- Witness of C8: a router with routes USD → us-processor and
mastercard → mastercard-processor, on a USD transaction (currency hit), on a
JPY transaction with an `mc` token (brand hit) and on a JPY transaction with an
unknown token (default). -/
theorem getProcessorForTransaction_lookup_order_witness :
    ((TransactionRouter.new.addRoute "USD" "us-processor").addCardBrandRoute
        "mastercard" "mastercard-processor").getProcessorForTransaction
      ⟨"t1", .PAYMENT, 50, "USD", "mc-1", "m1", .PENDING, 0, 0, "", ""⟩ = "us-processor" ∧
    ((TransactionRouter.new.addRoute "USD" "us-processor").addCardBrandRoute
        "mastercard" "mastercard-processor").getProcessorForTransaction
      ⟨"t2", .PAYMENT, 50, "JPY", "mc-1", "m1", .PENDING, 0, 0, "", ""⟩
        = "mastercard-processor" ∧
    ((TransactionRouter.new.addRoute "USD" "us-processor").addCardBrandRoute
        "mastercard" "mastercard-processor").getProcessorForTransaction
      ⟨"t3", .PAYMENT, 50, "JPY", "tok-1", "m1", .PENDING, 0, 0, "", ""⟩
        = "default-processor" :=
  ⟨(getProcessorForTransaction_lookup_order _ _).1 "us-processor" (by decide),
    (getProcessorForTransaction_lookup_order _ _).2.1 (by decide) "mastercard-processor"
      (by decide),
    (getProcessorForTransaction_lookup_order _ _).2.2.1 (by decide) (by decide)⟩

/-- C9: brand inference is a case-sensitive substring probe: a token that
contains none of `"visa"`, `"mc"`, `"amex"` (for instance `"VISA-1"`) gives
`"unknown"`; a token that contains exactly one of them gives `"visa"`,
`"mastercard"` or `"amex"` respectively. -/
theorem extractCardBrand_probe (cardToken : String) :
    (¬ "visa".data <:+: cardToken.data → ¬ "mc".data <:+: cardToken.data →
      ¬ "amex".data <:+: cardToken.data →
        TransactionRouter.extractCardBrand cardToken = "unknown") ∧
    ("visa".data <:+: cardToken.data → ¬ "mc".data <:+: cardToken.data →
      ¬ "amex".data <:+: cardToken.data →
        TransactionRouter.extractCardBrand cardToken = "visa") ∧
    (¬ "visa".data <:+: cardToken.data → "mc".data <:+: cardToken.data →
      ¬ "amex".data <:+: cardToken.data →
        TransactionRouter.extractCardBrand cardToken = "mastercard") ∧
    (¬ "visa".data <:+: cardToken.data → ¬ "mc".data <:+: cardToken.data →
      "amex".data <:+: cardToken.data →
        TransactionRouter.extractCardBrand cardToken = "amex") ∧
    TransactionRouter.extractCardBrand "VISA-1" = "unknown" := by
  rw [TransactionRouter.extractCardBrand_eq]
  refine ⟨?_, ?_, ?_, ?_, by decide⟩
  · intro h1 h2 h3; simp [h1, h2, h3]
  · intro h1 _ _; simp [h1]
  · intro h1 h2 _; simp [h1, h2]
  · intro h1 h2 h3; simp [h1, h2, h3]

/-- Witness of C9: the tokens `"tok-9"`, `"visa-xxx"`, `"mc-1"` and `"amex-7"`. -/
theorem extractCardBrand_probe_witness :
    TransactionRouter.extractCardBrand "tok-9" = "unknown" ∧
    TransactionRouter.extractCardBrand "visa-xxx" = "visa" ∧
    TransactionRouter.extractCardBrand "mc-1" = "mastercard" ∧
    TransactionRouter.extractCardBrand "amex-7" = "amex" :=
  ⟨(extractCardBrand_probe "tok-9").1 (by decide) (by decide) (by decide),
    (extractCardBrand_probe "visa-xxx").2.1 (by decide) (by decide) (by decide),
    (extractCardBrand_probe "mc-1").2.2.1 (by decide) (by decide) (by decide),
    (extractCardBrand_probe "amex-7").2.2.2.1 (by decide) (by decide) (by decide)⟩

/-- C10: adding a currency route is an upsert: after `addRoute c p`,
`getProcessorForTransaction` returns `p` for every transaction whose currency is
`c` (whatever was stored for `c` before), and returns the same result as before
the call for every transaction whose currency is different from `c`. -/
theorem addRoute_upsert (r : TransactionRouter) (c p : String) (t : Transaction) :
    (t.currency = c → (r.addRoute c p).getProcessorForTransaction t = p) ∧
    (t.currency ≠ c →
      (r.addRoute c p).getProcessorForTransaction t = r.getProcessorForTransaction t) := by
  constructor
  · intro h
    simp [TransactionRouter.getProcessorForTransaction, TransactionRouter.addRoute, h,
      UnorderedMap.find_assign_self]
  · intro h
    simp [TransactionRouter.getProcessorForTransaction, TransactionRouter.addRoute,
      UnorderedMap.find_assign_other _ _ _ _ h]

/-- Witness of C10: on a router that already routes EUR and GBP, re-routing EUR
replaces the EUR route and leaves the GBP route as it was. -/
theorem addRoute_upsert_witness :
    (((TransactionRouter.new.addRoute "EUR" "european-processor").addRoute "GBP"
        "uk-processor").addRoute "EUR" "sepa-processor").getProcessorForTransaction
      ⟨"t1", .PAYMENT, 50, "EUR", "visa-xxx", "m1", .PENDING, 0, 0, "", ""⟩
        = "sepa-processor" ∧
    (((TransactionRouter.new.addRoute "EUR" "european-processor").addRoute "GBP"
        "uk-processor").addRoute "EUR" "sepa-processor").getProcessorForTransaction
      ⟨"t2", .PAYMENT, 50, "GBP", "visa-xxx", "m1", .PENDING, 0, 0, "", ""⟩
        = "uk-processor" :=
  ⟨(addRoute_upsert _ "EUR" "sepa-processor" _).1 rfl,
    ((addRoute_upsert _ "EUR" "sepa-processor"
      ⟨"t2", .PAYMENT, 50, "GBP", "visa-xxx", "m1", .PENDING, 0, 0, "", ""⟩).2
        (by decide)).trans (by decide)⟩

/-! ## Properties of the engine -/

theorem TransactionProcessor.processDefaultTransaction_approved (rand : Nat → Nat)
    (tx : Transaction) (h : tx.amount < 10000) :
    TransactionProcessor.processDefaultTransaction rand tx =
      { tx with
        status := Transaction.Status.APPROVED
        response_code := "00"
        response_message := "Approved" } := by
  simp [TransactionProcessor.processDefaultTransaction, h, Transaction.setStatus,
    Transaction.setResponseCode, Transaction.setResponseMessage]

theorem TransactionProcessor.processDefaultTransaction_declined (rand : Nat → Nat)
    (tx : Transaction) (h : ¬ tx.amount < 10000) :
    TransactionProcessor.processDefaultTransaction rand tx =
      { tx with
        status := Transaction.Status.DECLINED
        response_code := "51"
        response_message := "Insufficient funds" } := by
  simp [TransactionProcessor.processDefaultTransaction, h, Transaction.setStatus,
    Transaction.setResponseCode, Transaction.setResponseMessage]

/-- The state left by `processTransaction` when `handler` is the handler it
invokes. -/
theorem TransactionProcessor.processTransaction_of_found (e : TransactionProcessor)
    (rand : Nat → Nat) (now : Nat) (t : Transaction) (handler : ProcessorFunction)
    (h : e.processors.find (e.router.getProcessorForTransaction
      (t.setStatus Transaction.Status.PROCESSING)) = some handler) :
    e.processTransaction rand now t =
      some ((handler rand (t.setStatus Transaction.Status.PROCESSING)).setProcessedAt now,
        { e with
          transactionResults := e.transactionResults.assign
            (handler rand (t.setStatus Transaction.Status.PROCESSING)).id
            ((handler rand (t.setStatus Transaction.Status.PROCESSING)).setProcessedAt now) }) := by
  simp [TransactionProcessor.processTransaction, h, Transaction.setProcessedAt]

theorem TransactionProcessor.processTransaction_of_fallback (e : TransactionProcessor)
    (rand : Nat → Nat) (now : Nat) (t : Transaction) (handler : ProcessorFunction)
    (h : e.processors.find (e.router.getProcessorForTransaction
      (t.setStatus Transaction.Status.PROCESSING)) = none)
    (hd : e.processors.find "default-processor" = some handler) :
    e.processTransaction rand now t =
      some ((handler rand (t.setStatus Transaction.Status.PROCESSING)).setProcessedAt now,
        { e with
          transactionResults := e.transactionResults.assign
            (handler rand (t.setStatus Transaction.Status.PROCESSING)).id
            ((handler rand (t.setStatus Transaction.Status.PROCESSING)).setProcessedAt now) }) := by
  simp [TransactionProcessor.processTransaction, h, hd, Transaction.setProcessedAt]

/-- When `"default-processor"` is registered, `processTransaction` invokes a
registered handler and publishes what it leaves. -/
theorem TransactionProcessor.processTransaction_some (e : TransactionProcessor)
    (rand : Nat → Nat) (now : Nat) (t : Transaction)
    (hd : e.processors.find "default-processor" ≠ none) :
    ∃ (key : String) (handler : ProcessorFunction),
      e.processors.find key = some handler ∧
      e.processTransaction rand now t =
        some ((handler rand (t.setStatus Transaction.Status.PROCESSING)).setProcessedAt now,
          { e with
            transactionResults := e.transactionResults.assign
              (handler rand (t.setStatus Transaction.Status.PROCESSING)).id
              ((handler rand (t.setStatus Transaction.Status.PROCESSING)).setProcessedAt
                now) }) := by
  cases h : e.processors.find (e.router.getProcessorForTransaction
      (t.setStatus Transaction.Status.PROCESSING)) with
  | some handler =>
    exact ⟨_, handler, h, e.processTransaction_of_found rand now t handler h⟩
  | none =>
    cases hd' : e.processors.find "default-processor" with
    | none => exact absurd hd' hd
    | some handler =>
      exact ⟨_, handler, hd', e.processTransaction_of_fallback rand now t handler h hd'⟩

theorem Option.ne_none_of_isSome_eq_true {α : Type} (o : Option α) (h : o.isSome = true) :
    o ≠ none := by
  intro h'
  rw [h'] at h
  exact Bool.noConfusion h

/-! ### The claims on the result lookups and on dispatch -/

/-- C11: `getTransactionStatus` returns the status of the transaction stored
under the id in the result store when one is stored, and `PENDING` when none is
stored; it leaves the engine, its result store included, unchanged. -/
theorem getTransactionStatus_lookup (e : TransactionProcessor) (transactionId : String) :
    (∀ stored, e.transactionResults.find transactionId = some stored →
      (e.getTransactionStatus transactionId).1 = stored.status) ∧
    (e.transactionResults.find transactionId = none →
      (e.getTransactionStatus transactionId).1 = Transaction.Status.PENDING) ∧
    (e.getTransactionStatus transactionId).2 = e ∧
    (e.getTransactionStatus transactionId).2.transactionResults = e.transactionResults := by
  refine ⟨?_, ?_, ?_, ?_⟩
  · intro stored h
    simp [TransactionProcessor.getTransactionStatus, h]
  · intro h
    simp [TransactionProcessor.getTransactionStatus, h]
  · cases h : e.transactionResults.find transactionId <;>
      simp [TransactionProcessor.getTransactionStatus, h]
  · cases h : e.transactionResults.find transactionId <;>
      simp [TransactionProcessor.getTransactionStatus, h]

/-- Witness of C11: in an engine whose result store holds the declined
transaction `"t1"`, the status of `"t1"` is `DECLINED` and the status of the
unknown id `"t2"` is `PENDING`. -/
theorem getTransactionStatus_lookup_witness :
    (sampleEngineWithResult.getTransactionStatus "t1").1 = Transaction.Status.DECLINED ∧
    (sampleEngineWithResult.getTransactionStatus "t2").1 = Transaction.Status.PENDING :=
  ⟨(getTransactionStatus_lookup sampleEngineWithResult "t1").1
      ((samplePayment "t1" 25000 "USD" "tok").setStatus Transaction.Status.DECLINED) rfl,
    (getTransactionStatus_lookup sampleEngineWithResult "t2").2.1 rfl⟩

/-- C12: for every id that has no entry in the result store,
`getTransactionResult` returns the sentinel transaction (empty id, type
`PAYMENT`, amount 0.0, empty currency, card token and merchant id, status
`PENDING`, empty response code and message); for an id that has an entry it
returns exactly the stored transaction. -/
theorem getTransactionResult_lookup (e : TransactionProcessor) (now : Nat)
    (transactionId : String) :
    (e.transactionResults.find transactionId = none →
      (e.getTransactionResult now transactionId).1 =
        { id := ""
          type := Transaction.Type.PAYMENT
          amount := 0
          currency := ""
          card_token := ""
          merchant_id := ""
          status := Transaction.Status.PENDING
          created_at := now
          processed_at := 0
          response_code := ""
          response_message := "" }) ∧
    (∀ stored, e.transactionResults.find transactionId = some stored →
      (e.getTransactionResult now transactionId).1 = stored) ∧
    (e.getTransactionResult now transactionId).2 = e := by
  refine ⟨?_, ?_, ?_⟩
  · intro h
    simp [TransactionProcessor.getTransactionResult, h, Transaction.new]
  · intro stored h
    simp [TransactionProcessor.getTransactionResult, h]
  · cases h : e.transactionResults.find transactionId <;>
      simp [TransactionProcessor.getTransactionResult, h]

/-- Witness of C12: a fresh engine has no entry for `"tx-404"` and returns the
sentinel, whose id is empty and whose status is `PENDING`. -/
theorem getTransactionResult_lookup_witness :
    ((TransactionProcessor.new 4).getTransactionResult 7 "tx-404").1.id = "" ∧
    ((TransactionProcessor.new 4).getTransactionResult 7 "tx-404").1.status
      = Transaction.Status.PENDING ∧
    ((TransactionProcessor.new 4).getTransactionResult 7 "tx-404").1.amount = 0 :=
  ⟨by rw [(getTransactionResult_lookup (TransactionProcessor.new 4) 7 "tx-404").1 rfl],
    by rw [(getTransactionResult_lookup (TransactionProcessor.new 4) 7 "tx-404").1 rfl],
    by rw [(getTransactionResult_lookup (TransactionProcessor.new 4) 7 "tx-404").1 rfl]⟩

/-- C13: the outcome of the built-in default handler depends only on the amount:
below 10000 the status becomes `APPROVED` with response code `"00"` and message
`"Approved"`; otherwise it becomes `DECLINED` with response code `"51"` and
message `"Insufficient funds"`.  50.00 is approved, 25000.00 and exactly 10000
are declined. -/
theorem processDefaultTransaction_outcome (rand : Nat → Nat) (tx : Transaction) :
    (tx.amount < 10000 →
      (TransactionProcessor.processDefaultTransaction rand tx).status
        = Transaction.Status.APPROVED ∧
      (TransactionProcessor.processDefaultTransaction rand tx).response_code = "00" ∧
      (TransactionProcessor.processDefaultTransaction rand tx).response_message
        = "Approved") ∧
    (¬ tx.amount < 10000 →
      (TransactionProcessor.processDefaultTransaction rand tx).status
        = Transaction.Status.DECLINED ∧
      (TransactionProcessor.processDefaultTransaction rand tx).response_code = "51" ∧
      (TransactionProcessor.processDefaultTransaction rand tx).response_message
        = "Insufficient funds") ∧
    (∀ (rand' : Nat → Nat) (tx' : Transaction), tx'.amount = tx.amount →
      (TransactionProcessor.processDefaultTransaction rand' tx').status
        = (TransactionProcessor.processDefaultTransaction rand tx).status ∧
      (TransactionProcessor.processDefaultTransaction rand' tx').response_code
        = (TransactionProcessor.processDefaultTransaction rand tx).response_code ∧
      (TransactionProcessor.processDefaultTransaction rand' tx').response_message
        = (TransactionProcessor.processDefaultTransaction rand tx).response_message) ∧
    (TransactionProcessor.processDefaultTransaction rand { tx with amount := 50 }).status
      = Transaction.Status.APPROVED ∧
    (TransactionProcessor.processDefaultTransaction rand { tx with amount := 25000 }).status
      = Transaction.Status.DECLINED ∧
    (TransactionProcessor.processDefaultTransaction rand { tx with amount := 10000 }).status
      = Transaction.Status.DECLINED := by
  refine ⟨?_, ?_, ?_, ?_, ?_, ?_⟩
  · intro h
    rw [TransactionProcessor.processDefaultTransaction_approved rand tx h]
    exact ⟨rfl, rfl, rfl⟩
  · intro h
    rw [TransactionProcessor.processDefaultTransaction_declined rand tx h]
    exact ⟨rfl, rfl, rfl⟩
  · intro rand' tx' heq
    by_cases h : tx.amount < 10000
    · rw [TransactionProcessor.processDefaultTransaction_approved rand tx h,
        TransactionProcessor.processDefaultTransaction_approved rand' tx' (heq ▸ h)]
      exact ⟨rfl, rfl, rfl⟩
    · rw [TransactionProcessor.processDefaultTransaction_declined rand tx h,
        TransactionProcessor.processDefaultTransaction_declined rand' tx' (heq ▸ h)]
      exact ⟨rfl, rfl, rfl⟩
  · rw [TransactionProcessor.processDefaultTransaction_approved rand _
      (show (50 : Rat) < 10000 by norm_num)]
  · rw [TransactionProcessor.processDefaultTransaction_declined rand _
      (show ¬ (25000 : Rat) < 10000 by norm_num)]
  · rw [TransactionProcessor.processDefaultTransaction_declined rand _
      (show ¬ (10000 : Rat) < 10000 by norm_num)]

/-- Witness of C13: a payment of 9999.99 is approved with code `"00"`, one of
10000.01 is declined with code `"51"`. -/
theorem processDefaultTransaction_outcome_witness :
    ((TransactionProcessor.processDefaultTransaction (fun _ => 0)
        (Transaction.new 5 "t1" Transaction.Type.PAYMENT (999999 / 100) "USD" "tok" "m")).status
      = Transaction.Status.APPROVED ∧
     (TransactionProcessor.processDefaultTransaction (fun _ => 0)
        (Transaction.new 5 "t1" Transaction.Type.PAYMENT (999999 / 100) "USD" "tok"
          "m")).response_code = "00") ∧
    ((TransactionProcessor.processDefaultTransaction (fun _ => 7)
        (Transaction.new 5 "t2" Transaction.Type.PAYMENT (1000001 / 100) "USD" "tok" "m")).status
      = Transaction.Status.DECLINED ∧
     (TransactionProcessor.processDefaultTransaction (fun _ => 7)
        (Transaction.new 5 "t2" Transaction.Type.PAYMENT (1000001 / 100) "USD" "tok"
          "m")).response_code = "51") :=
  ⟨⟨((processDefaultTransaction_outcome _ _).1
        (show (999999 / 100 : Rat) < 10000 by norm_num)).1,
      ((processDefaultTransaction_outcome _ _).1
        (show (999999 / 100 : Rat) < 10000 by norm_num)).2.1⟩,
    ⟨((processDefaultTransaction_outcome _ _).2.1
        (show ¬ (1000001 / 100 : Rat) < 10000 by norm_num)).1,
      ((processDefaultTransaction_outcome _ _).2.1
        (show ¬ (1000001 / 100 : Rat) < 10000 by norm_num)).2.1⟩⟩

/-- C14: when the processor id chosen by the router has a handler in the
registry, `processTransaction` invokes that handler on the transaction (set to
`PROCESSING`) and publishes what it leaves; when the chosen id has no handler,
the handler registered under `"default-processor"` is the one invoked. -/
theorem processTransaction_dispatch (e : TransactionProcessor) (rand : Nat → Nat) (now : Nat)
    (t : Transaction) :
    (∀ handler : ProcessorFunction,
      e.processors.find (e.router.getProcessorForTransaction
        (t.setStatus Transaction.Status.PROCESSING)) = some handler →
      e.processTransaction rand now t =
        some ((handler rand (t.setStatus Transaction.Status.PROCESSING)).setProcessedAt now,
          { e with
            transactionResults := e.transactionResults.assign
              (handler rand (t.setStatus Transaction.Status.PROCESSING)).id
              ((handler rand (t.setStatus Transaction.Status.PROCESSING)).setProcessedAt
                now) })) ∧
    (e.processors.find (e.router.getProcessorForTransaction
        (t.setStatus Transaction.Status.PROCESSING)) = none →
      ∀ fallback : ProcessorFunction,
        e.processors.find "default-processor" = some fallback →
        e.processTransaction rand now t =
          some ((fallback rand (t.setStatus Transaction.Status.PROCESSING)).setProcessedAt now,
            { e with
              transactionResults := e.transactionResults.assign
                (fallback rand (t.setStatus Transaction.Status.PROCESSING)).id
                ((fallback rand (t.setStatus Transaction.Status.PROCESSING)).setProcessedAt
                  now) })) :=
  ⟨fun handler h => e.processTransaction_of_found rand now t handler h,
    fun h fallback hd => e.processTransaction_of_fallback rand now t fallback h hd⟩

/-- Witness of C14: in a fresh engine a EUR payment is routed to
`"european-processor"`, which has no handler, so the default handler runs
(50.00 is approved with `"Approved"`); a USD payment with a `visa` token is
routed to `"visa-processor"` and the Visa handler runs (with the deciding
`rand()` equal to 99 it declines with `"Do not honor"`). -/
theorem processTransaction_dispatch_witness :
    (((TransactionProcessor.new 4).processTransaction (fun _ => 99) 9
        (samplePayment "t1" 50 "EUR" "visa-xxx")).map
          (fun r => r.1.response_message)) = some "Approved" ∧
    (((TransactionProcessor.new 4).processTransaction (fun _ => 99) 9
        (samplePayment "t2" 50 "USD" "visa-xxx")).map
          (fun r => r.1.response_message)) = some "Do not honor" := by
  constructor
  · rw [(processTransaction_dispatch (TransactionProcessor.new 4) (fun _ => 99) 9
      (samplePayment "t1" 50 "EUR" "visa-xxx")).2 rfl
      TransactionProcessor.processDefaultTransaction rfl]
    rfl
  · rw [(processTransaction_dispatch (TransactionProcessor.new 4) (fun _ => 99) 9
      (samplePayment "t2" 50 "USD" "visa-xxx")).1
      TransactionProcessor.processVisaTransaction rfl]
    rfl

/-- Invariant of `runQueueOps`: what has been handed out, followed by what is
still queued, is what was there before followed by what the calls enqueue. -/
theorem runQueueOps_invariant (ops : List QueueOp) :
    ∀ (q : TransactionQueue) (outs : List Transaction),
      (runQueueOps ops q outs).2 ++ (runQueueOps ops q outs).1.queue
        = outs ++ q.queue ++ enqueuedBy ops := by
  induction ops with
  | nil => intro q outs; simp [runQueueOps, enqueuedBy]
  | cons op ops ih =>
    intro q outs
    cases op with
    | enqueue t =>
      simp only [runQueueOps, enqueuedBy]
      rw [ih]
      simp [TransactionQueue.enqueue]
    | dequeue out =>
      obtain ⟨queue⟩ := q
      cases queue with
      | nil =>
        simp only [runQueueOps, enqueuedBy, TransactionQueue.dequeue]
        rw [ih]
      | cons front rest =>
        simp only [runQueueOps, enqueuedBy, TransactionQueue.dequeue]
        rw [ih]
        simp

/-- The transactions submitted one after the other are appended to the pending
queue, in order; nothing else in the engine changes. -/
theorem foldl_submitTransaction (ts : List Transaction) :
    ∀ e : TransactionProcessor,
      ts.foldl (fun e transaction => e.submitTransaction transaction) e =
        { e with pendingQueue := { queue := e.pendingQueue.queue ++ ts } } := by
  induction ts with
  | nil => intro e; simp
  | cons t ts ih =>
    intro e
    rw [List.foldl_cons, ih]
    simp [TransactionProcessor.submitTransaction, TransactionQueue.enqueue]

/-- The batch list after a sequence of `addToBatch` calls. -/
theorem foldl_addToBatch (ts : List Transaction) :
    ∀ b : BatchProcessor,
      (ts.foldl (fun b transaction => b.addToBatch transaction) b).batchQueue
        = b.batchQueue ++ ts := by
  induction ts with
  | nil => intro b; simp
  | cons t ts ih =>
    intro b
    rw [List.foldl_cons, ih]
    simp [BatchProcessor.addToBatch]

/-- The spawning loop of `start` adds one thread per iteration. -/
theorem foldl_push_thread (n workers : Nat) :
    (List.range n).foldl (fun workers _ => workers + 1) workers = workers + n := by
  induction n with
  | zero => simp
  | succ n ih => rw [List.range_succ, List.foldl_concat, ih]; omega

theorem TransactionProcessor.start_numWorkers (e : TransactionProcessor) :
    e.start.numWorkers = e.numWorkers := by
  unfold TransactionProcessor.start
  split_ifs <;> rfl

theorem TransactionProcessor.stop_numWorkers (e : TransactionProcessor) :
    e.stop.numWorkers = e.numWorkers := by
  unfold TransactionProcessor.stop
  split_ifs <;> rfl

theorem TransactionProcessor.start_poolInvariant (e : TransactionProcessor)
    (h : poolInvariant e) : poolInvariant e.start := by
  unfold TransactionProcessor.start
  cases hr : e.running with
  | true => simpa [hr] using h
  | false =>
    simp only [Bool.false_eq_true, if_false]
    constructor
    · intro _
      show (List.range e.numWorkers.toNat).foldl (fun workers _ => workers + 1) e.workers = _
      rw [foldl_push_thread, h.2 hr, Nat.zero_add]
    · intro h'
      exact Bool.noConfusion h'

theorem TransactionProcessor.stop_poolInvariant (e : TransactionProcessor)
    (h : poolInvariant e) : poolInvariant e.stop := by
  unfold TransactionProcessor.stop
  cases hr : e.running with
  | false => simpa [hr] using h
  | true =>
    simp only [Bool.not_true, Bool.false_eq_true, if_false]
    exact ⟨fun h' => Bool.noConfusion h', fun _ => rfl⟩

theorem runLifecycle_poolInvariant (ops : List LifecycleOp) :
    ∀ e : TransactionProcessor, poolInvariant e →
      poolInvariant (runLifecycle ops e) ∧ (runLifecycle ops e).numWorkers = e.numWorkers := by
  induction ops with
  | nil => intro e h; exact ⟨h, rfl⟩
  | cons op ops ih =>
    intro e h
    cases op with
    | start =>
      have := ih e.start (e.start_poolInvariant h)
      exact ⟨this.1, this.2.trans e.start_numWorkers⟩
    | stop =>
      have := ih e.stop (e.stop_poolInvariant h)
      exact ⟨this.1, this.2.trans e.stop_numWorkers⟩

/-- The effect of `processBatch`: the batch list is appended to the pending
queue of the engine and the batch list is left empty. -/
theorem BatchProcessor.processBatch_spec (b : BatchProcessor) (e : TransactionProcessor) :
    (b.processBatch e).2 = { e with pendingQueue := { queue := e.pendingQueue.queue ++ b.batchQueue } } ∧
    (b.processBatch e).1.batchQueue = [] := by
  cases h : b.batchQueue with
  | nil => simp [BatchProcessor.processBatch, h]
  | cons t ts =>
    simp only [BatchProcessor.processBatch, h, List.isEmpty_cons, Bool.false_eq_true, if_false]
    exact ⟨foldl_submitTransaction _ e, trivial⟩

theorem TransactionProcessor.stop_start_running (e : TransactionProcessor) :
    e.stop.start.running = true := by
  cases h : e.running <;> simp [TransactionProcessor.start, TransactionProcessor.stop, h]

/-! ### The claims on the queue, the batch accumulator and the worker pool -/

/-- C17: the transaction queue is FIFO: for every sequence of `enqueue` and
`dequeue` calls starting from an empty queue, the transactions handed out by the
successful dequeues followed by those still queued are the enqueued
transactions in order, so the `k`-th successful dequeue returns the `k`-th
enqueued transaction. -/
theorem queue_fifo (ops : List QueueOp) :
    (runQueueOps ops TransactionQueue.new []).2 ++ (runQueueOps ops TransactionQueue.new []).1.queue
      = enqueuedBy ops ∧
    ∀ (k : Nat) (t : Transaction),
      (runQueueOps ops TransactionQueue.new []).2[k]? = some t → (enqueuedBy ops)[k]? = some t := by
  have h := runQueueOps_invariant ops TransactionQueue.new []
  rw [List.nil_append, show TransactionQueue.new.queue = [] from rfl, List.nil_append] at h
  refine ⟨h, ?_⟩
  intro k t hk
  have hlt : k < (runQueueOps ops TransactionQueue.new []).2.length := by
    by_contra hge
    rw [List.getElem?_eq_none (Nat.le_of_not_lt hge)] at hk
    exact Option.noConfusion hk
  rw [← h, List.getElem?_append_left hlt]
  exact hk

/-- C18: `dequeue` on a non-empty queue succeeds, returns the head and removes
exactly that element (the size decreases by one, the remaining elements keep
their order); `dequeue` on a queue that is empty when the wait ends returns
false and leaves the queue and the caller's output transaction unchanged. -/
theorem dequeue_head_or_timeout (q : TransactionQueue) (out : Transaction) :
    (∀ (front : Transaction) (rest : List Transaction), q.queue = front :: rest →
      (q.dequeue out).1 = true ∧ (q.dequeue out).2.1 = front ∧
      (q.dequeue out).2.2.queue = rest ∧ (q.dequeue out).2.2.size + 1 = q.size) ∧
    (q.queue = [] →
      (q.dequeue out).1 = false ∧ (q.dequeue out).2.1 = out ∧ (q.dequeue out).2.2 = q) := by
  constructor
  · intro front rest h
    simp [TransactionQueue.dequeue, TransactionQueue.size, h]
  · intro h
    simp [TransactionQueue.dequeue, h]

/-- Witness of C18: a queue holding `a` then `b` hands out `a` and keeps `b`;
the empty queue hands out nothing and leaves the output transaction as it is. -/
theorem dequeue_head_or_timeout_witness :
    (((TransactionQueue.new.enqueue (samplePayment "a" 1 "USD" "tok")).enqueue
        (samplePayment "b" 2 "USD" "tok")).dequeue (samplePayment "out" 0 "" "")).2.1
      = samplePayment "a" 1 "USD" "tok" ∧
    (((TransactionQueue.new.enqueue (samplePayment "a" 1 "USD" "tok")).enqueue
        (samplePayment "b" 2 "USD" "tok")).dequeue (samplePayment "out" 0 "" "")).2.2.queue
      = [samplePayment "b" 2 "USD" "tok"] ∧
    (TransactionQueue.new.dequeue (samplePayment "out" 0 "" "")).1 = false ∧
    (TransactionQueue.new.dequeue (samplePayment "out" 0 "" "")).2.1
      = samplePayment "out" 0 "" "" :=
  ⟨((dequeue_head_or_timeout _ _).1 _ _ rfl).2.1,
    ((dequeue_head_or_timeout _ _).1 (samplePayment "a" 1 "USD" "tok") _ rfl).2.2.1,
    ((dequeue_head_or_timeout TransactionQueue.new _).2 rfl).1,
    ((dequeue_head_or_timeout TransactionQueue.new _).2 rfl).2.1⟩

/-- C19: `processBatchNow` flushes the whole batch: for the batch list built by
`addToBatch` from `ts`, afterwards the pending queue of the engine is its
previous contents followed by `ts` in insertion order, each once, the rest of
the engine is unchanged and `getBatchSize` returns 0; on an empty batch it
changes nothing. -/
theorem processBatchNow_flushes (b : BatchProcessor) (e : TransactionProcessor)
    (ts : List Transaction) (hb : b.batchQueue = []) :
    ((ts.foldl (fun b transaction => b.addToBatch transaction) b).processBatchNow e).2
      = { e with pendingQueue := { queue := e.pendingQueue.queue ++ ts } } ∧
    ((ts.foldl (fun b transaction => b.addToBatch transaction) b).processBatchNow e).1.getBatchSize
      = 0 ∧
    b.processBatchNow e = (b, e) := by
  have hq := foldl_addToBatch ts b
  rw [hb, List.nil_append] at hq
  have hspec := BatchProcessor.processBatch_spec
    (ts.foldl (fun b transaction => b.addToBatch transaction) b) e
  rw [hq] at hspec
  refine ⟨hspec.1, ?_, ?_⟩
  · show (BatchProcessor.processBatch _ e).1.batchQueue.length = 0
    rw [hspec.2]
    rfl
  · simp [BatchProcessor.processBatchNow, BatchProcessor.processBatch, hb]

/-- Witness of C19: three transactions added to a new accumulator and flushed
into a fresh engine, which then has exactly these three pending, in order. -/
theorem processBatchNow_flushes_witness :
    ((([samplePayment "a" 1 "USD" "tok", samplePayment "b" 2 "EUR" "tok",
        samplePayment "c" 3 "USD" "visa-1"].foldl
          (fun b transaction => b.addToBatch transaction) BatchProcessor.new).processBatchNow
        (TransactionProcessor.new 4)).2.pendingQueue.queue
      = [samplePayment "a" 1 "USD" "tok", samplePayment "b" 2 "EUR" "tok",
        samplePayment "c" 3 "USD" "visa-1"]) ∧
    (([samplePayment "a" 1 "USD" "tok", samplePayment "b" 2 "EUR" "tok",
        samplePayment "c" 3 "USD" "visa-1"].foldl
          (fun b transaction => b.addToBatch transaction) BatchProcessor.new).processBatchNow
        (TransactionProcessor.new 4)).1.getBatchSize = 0 := by
  have h := processBatchNow_flushes BatchProcessor.new (TransactionProcessor.new 4)
    [samplePayment "a" 1 "USD" "tok", samplePayment "b" 2 "EUR" "tok",
      samplePayment "c" 3 "USD" "visa-1"] rfl
  exact ⟨by rw [h.1]; rfl, h.2.1⟩

/-- C20: `start` and `stop` are idempotent and keep the pool bounded: after any
sequence of `start()` and `stop()` calls on an engine built with `N` workers,
the pool holds exactly `N` threads if the engine is running and none if it is
not; `start()` on a running engine and `stop()` on a stopped engine change
nothing; `stop()` followed by `start()` gives a running engine with `N` workers. -/
theorem start_stop_pool (N : Int) (hN : 0 ≤ N) (ops : List LifecycleOp) :
    ((runLifecycle ops (TransactionProcessor.new N)).running = true →
      ((runLifecycle ops (TransactionProcessor.new N)).workers : Int) = N) ∧
    ((runLifecycle ops (TransactionProcessor.new N)).running = false →
      (runLifecycle ops (TransactionProcessor.new N)).workers = 0) ∧
    ((runLifecycle ops (TransactionProcessor.new N)).running = true →
      (runLifecycle ops (TransactionProcessor.new N)).start
        = runLifecycle ops (TransactionProcessor.new N)) ∧
    ((runLifecycle ops (TransactionProcessor.new N)).running = false →
      (runLifecycle ops (TransactionProcessor.new N)).stop
        = runLifecycle ops (TransactionProcessor.new N)) ∧
    (runLifecycle ops (TransactionProcessor.new N)).stop.start.running = true ∧
    ((runLifecycle ops (TransactionProcessor.new N)).stop.start.workers : Int) = N := by
  have hinit : poolInvariant (TransactionProcessor.new N) :=
    ⟨fun h => Bool.noConfusion h, fun _ => rfl⟩
  obtain ⟨hinv, hnum⟩ := runLifecycle_poolInvariant ops (TransactionProcessor.new N) hinit
  have hN' : (TransactionProcessor.new N).numWorkers = N := rfl
  rw [hN'] at hnum
  have hcast : ((N.toNat : Nat) : Int) = N := Int.toNat_of_nonneg hN
  have hss := (runLifecycle ops (TransactionProcessor.new N)).stop.start_poolInvariant
    ((runLifecycle ops (TransactionProcessor.new N)).stop_poolInvariant hinv)
  have hrun : (runLifecycle ops (TransactionProcessor.new N)).stop.start.running = true :=
    TransactionProcessor.stop_start_running _
  refine ⟨?_, hinv.2, ?_, ?_, hrun, ?_⟩
  · intro h
    rw [hinv.1 h, hnum, hcast]
  · intro h
    simp [TransactionProcessor.start, h]
  · intro h
    simp [TransactionProcessor.stop, h]
  · rw [hss.1 hrun, TransactionProcessor.start_numWorkers, TransactionProcessor.stop_numWorkers,
      hnum, hcast]

/-- Witness of C20: an engine built with 4 workers after `start, start, stop,
stop, start` is running with 4 threads, and after one more `stop` it has none. -/
theorem start_stop_pool_witness :
    ((runLifecycle [LifecycleOp.start, LifecycleOp.start, LifecycleOp.stop, LifecycleOp.stop,
        LifecycleOp.start] (TransactionProcessor.new 4)).workers : Int) = 4 ∧
    (runLifecycle [LifecycleOp.start, LifecycleOp.start, LifecycleOp.stop, LifecycleOp.stop,
        LifecycleOp.start, LifecycleOp.stop] (TransactionProcessor.new 4)).workers = 0 :=
  ⟨(start_stop_pool 4 (by decide) _).1 rfl, (start_stop_pool 4 (by decide) _).2.1 rfl⟩

/-! ## Properties of shutdown, construction and JSON emission -/

theorem TransactionProcessor.stop_running (e : TransactionProcessor) :
    e.stop.running = false := by
  cases h : e.running <;> simp [TransactionProcessor.stop, h]

theorem TransactionProcessor.stop_pendingQueue (e : TransactionProcessor) :
    e.stop.pendingQueue = e.pendingQueue := by
  cases h : e.running <;> simp [TransactionProcessor.stop, h]

theorem TransactionProcessor.stop_transactionResults (e : TransactionProcessor) :
    e.stop.transactionResults = e.transactionResults := by
  cases h : e.running <;> simp [TransactionProcessor.stop, h]

theorem TransactionProcessor.start_pendingQueue (e : TransactionProcessor) :
    e.start.pendingQueue = e.pendingQueue := by
  cases h : e.running <;> simp [TransactionProcessor.start, h]

/-- Counterexample to C21 as stated: a payment submitted to an engine that is
started and stopped before any worker takes it is still in the pending queue
after `stop()`, and the first worker iteration after a later `start()`
processes it: its id reports `APPROVED`, not `PENDING`. -/
theorem stop_does_not_discard_pending :
    sampleStoppedEngine.pendingQueue.size = 1 ∧
    (sampleStoppedEngine.getTransactionStatus "t1").1 = Transaction.Status.PENDING ∧
    ((sampleStoppedEngine.start.workerThreadIteration (fun _ => 0) 9
        (samplePayment "" 0 "" "")).map
          (fun e => (e.getTransactionStatus "t1").1)) = some Transaction.Status.APPROVED := by
  refine ⟨rfl, rfl, rfl⟩

/-- C21, amended: `stop()` does not touch the pending queue.  The transactions
that remain queued when `stop()` returns stay pending in the engine: the result
store is as it was, so their ids keep reporting what they reported (`PENDING`
when never processed); no worker iteration takes anything while the engine is
stopped; after a later `start()` the queue is the same, and a worker iteration
dequeues its head and processes it. -/
theorem stop_keeps_pending_queue (e : TransactionProcessor) :
    e.stop.pendingQueue = e.pendingQueue ∧
    e.stop.transactionResults = e.transactionResults ∧
    (∀ id, (e.stop.getTransactionStatus id).1 = (e.getTransactionStatus id).1) ∧
    (∀ rand now fresh, e.stop.workerThreadIteration rand now fresh = some e.stop) ∧
    e.stop.start.pendingQueue = e.pendingQueue ∧
    (∀ (t : Transaction) (rest : List Transaction) rand now fresh,
      e.pendingQueue.queue = t :: rest →
      e.stop.start.workerThreadIteration rand now fresh =
        (TransactionProcessor.processTransaction
          { e.stop.start with pendingQueue := { queue := rest } } rand now t).map Prod.snd) := by
  refine ⟨e.stop_pendingQueue, e.stop_transactionResults, ?_, ?_, ?_, ?_⟩
  · intro id
    simp only [TransactionProcessor.getTransactionStatus, e.stop_transactionResults]
    cases e.transactionResults.find id <;> rfl
  · intro rand now fresh
    simp [TransactionProcessor.workerThreadIteration, e.stop_running]
  · rw [TransactionProcessor.start_pendingQueue, TransactionProcessor.stop_pendingQueue]
  · intro t rest rand now fresh h
    have hq : e.stop.start.pendingQueue.queue = t :: rest := by
      rw [TransactionProcessor.start_pendingQueue, TransactionProcessor.stop_pendingQueue, h]
    simp [TransactionProcessor.workerThreadIteration, e.stop_start_running,
      TransactionQueue.dequeue, hq]

/-- Witness of C21, amended: the engine stopped with `"t1"` queued.  After a
later `start()` the first worker iteration is the processing of `"t1"`. -/
theorem stop_keeps_pending_queue_witness :
    sampleStoppedEngine.stop.start.workerThreadIteration (fun _ => 0) 9
        (samplePayment "" 0 "" "") =
      (TransactionProcessor.processTransaction
        { sampleStoppedEngine.stop.start with pendingQueue := { queue := [] } }
        (fun _ => 0) 9 (samplePayment "t1" 50 "USD" "tok")).map Prod.snd :=
  (stop_keeps_pending_queue sampleStoppedEngine).2.2.2.2.2 _ _ _ _ _ rfl

/-- C22: every transaction is created with status `PENDING`, an unset (epoch)
`processed_at`, empty response code and message, and its id, type, amount,
currency, card token and merchant id are exactly the constructor arguments;
none of the four setters changes any of those six identity fields. -/
theorem transaction_new_and_setters (now : Nat) (id : String) (type : Transaction.Type)
    (amount : Rat) (currency card_token merchant_id : String) (t : Transaction) :
    (Transaction.new now id type amount currency card_token merchant_id).status
      = Transaction.Status.PENDING ∧
    (Transaction.new now id type amount currency card_token merchant_id).processed_at = 0 ∧
    (Transaction.new now id type amount currency card_token merchant_id).response_code = "" ∧
    (Transaction.new now id type amount currency card_token merchant_id).response_message
      = "" ∧
    (Transaction.new now id type amount currency card_token merchant_id).identity
      = (id, type, amount, currency, card_token, merchant_id) ∧
    (∀ newStatus, (t.setStatus newStatus).identity = t.identity) ∧
    (∀ time, (t.setProcessedAt time).identity = t.identity) ∧
    (∀ code, (t.setResponseCode code).identity = t.identity) ∧
    (∀ message, (t.setResponseMessage message).identity = t.identity) :=
  ⟨rfl, rfl, rfl, rfl, rfl, fun _ => rfl, fun _ => rfl, fun _ => rfl, fun _ => rfl⟩

/-- C23: `toJson` emits the eight fields id, type, amount, currency, card_token,
merchant_id, status, created_at in this order whatever the status is; the
fields processed_at, response_code and response_message that follow are the
JSON literal `null` if and only if the status is `PENDING` or `PROCESSING`, and
quoted strings for every other status. -/
theorem toJson_last_three_fields (fixed2 : Rat → String) (timePointToString : Nat → String)
    (t : Transaction) :
    ∃ lastThree : String,
      Transaction.toJson fixed2 timePointToString t =
        "\x7b" ++ "\"id\":\"" ++ t.id ++ "\","
          ++ "\"type\":\"" ++ Transaction.typeToString t.type ++ "\","
          ++ "\"amount\":" ++ fixed2 t.amount ++ ","
          ++ "\"currency\":\"" ++ t.currency ++ "\","
          ++ "\"card_token\":\"" ++ t.card_token ++ "\","
          ++ "\"merchant_id\":\"" ++ t.merchant_id ++ "\","
          ++ "\"status\":\"" ++ Transaction.statusToString t.status ++ "\","
          ++ "\"created_at\":\"" ++ timePointToString t.created_at ++ "\","
          ++ lastThree ++ "\x7d" ∧
      (lastThree = "\"processed_at\":null,\"response_code\":null,\"response_message\":null" ↔
        (t.status = Transaction.Status.PENDING ∨ t.status = Transaction.Status.PROCESSING)) ∧
      (¬ (t.status = Transaction.Status.PENDING ∨ t.status = Transaction.Status.PROCESSING) →
        lastThree = "\"processed_at\":\"" ++ timePointToString t.processed_at ++ "\","
          ++ "\"response_code\":\"" ++ t.response_code ++ "\","
          ++ "\"response_message\":\"" ++ t.response_message ++ "\"") := by
  by_cases h : t.status = Transaction.Status.PENDING ∨ t.status = Transaction.Status.PROCESSING
  · refine ⟨"\"processed_at\":null,\"response_code\":null,\"response_message\":null", ?_,
      ⟨fun _ => h, fun _ => rfl⟩, fun hn => absurd h hn⟩
    have hc : ¬ (t.status ≠ Transaction.Status.PENDING ∧
        t.status ≠ Transaction.Status.PROCESSING) := by
      rintro ⟨h1, h2⟩
      rcases h with h | h
      · exact h1 h
      · exact h2 h
    unfold Transaction.toJson
    simp only [if_neg hc, String.append_assoc]
    rfl
  · have hc : t.status ≠ Transaction.Status.PENDING ∧
        t.status ≠ Transaction.Status.PROCESSING :=
      ⟨fun h' => h (Or.inl h'), fun h' => h (Or.inr h')⟩
    refine ⟨"\"processed_at\":\"" ++ timePointToString t.processed_at ++ "\","
          ++ "\"response_code\":\"" ++ t.response_code ++ "\","
          ++ "\"response_message\":\"" ++ t.response_message ++ "\"", ?_, ⟨?_, fun h' => absurd h' h⟩,
      fun _ => rfl⟩
    · unfold Transaction.toJson
      simp only [if_pos hc, String.append_assoc]
    · intro heq
      exfalso
      have h15 := congrArg (fun s : String => s.data[15]?) heq
      simp only [String.append_assoc, String.data_append] at h15
      rw [List.getElem?_append_left (by decide)] at h15
      exact absurd h15 (by decide)

/-! ## Properties of the registry and of the routes set up by the constructor -/

theorem UnorderedMap.find_assign_isSome {V : Type} (m : UnorderedMap V) (key other : String)
    (value : V) (h : (m.find other).isSome = true) :
    ((m.assign key value).find other).isSome = true := by
  by_cases hk : other = key
  · rw [hk, UnorderedMap.find_assign_self]; rfl
  · rw [UnorderedMap.find_assign_other _ _ _ _ hk]; exact h

/-- Registrations keep every id that is registered. -/
theorem foldl_registerProcessor_isSome (regs : List (String × ProcessorFunction)) (key : String) :
    ∀ e : TransactionProcessor, (e.processors.find key).isSome = true →
      ((regs.foldl (fun e r => e.registerProcessor r.1 r.2) e).processors.find key).isSome
        = true := by
  induction regs with
  | nil => intro e h; exact h
  | cons r regs ih =>
    intro e h
    rw [List.foldl_cons]
    exact ih _ (UnorderedMap.find_assign_isSome _ _ _ _ h)

/-- The routes of a freshly constructed engine. -/
theorem TransactionProcessor.new_router (numWorkers : Int) :
    (TransactionProcessor.new numWorkers).router =
      { currencyRoutes := [("EUR", "european-processor"), ("GBP", "european-processor")]
        cardBrandRoutes := [("visa", "visa-processor"), ("mastercard", "mastercard-processor")] } := by
  rfl

/-- C28: the registry always contains the three built-in ids: after construction
and after any sequence of `registerProcessor` calls, `"default-processor"`,
`"visa-processor"` and `"mastercard-processor"` are all present, so the
fallback lookup of `"default-processor"` in `processTransaction` never misses
and `processTransaction` completes. -/
theorem builtin_processors_stay_registered (numWorkers : Int)
    (regs : List (String × ProcessorFunction)) :
    ((regs.foldl (fun e r => e.registerProcessor r.1 r.2)
      (TransactionProcessor.new numWorkers)).processors.find "default-processor").isSome = true ∧
    ((regs.foldl (fun e r => e.registerProcessor r.1 r.2)
      (TransactionProcessor.new numWorkers)).processors.find "visa-processor").isSome = true ∧
    ((regs.foldl (fun e r => e.registerProcessor r.1 r.2)
      (TransactionProcessor.new numWorkers)).processors.find "mastercard-processor").isSome
        = true ∧
    ∀ (rand : Nat → Nat) (now : Nat) (t : Transaction),
      ((regs.foldl (fun e r => e.registerProcessor r.1 r.2)
        (TransactionProcessor.new numWorkers)).processTransaction rand now t).isSome = true := by
  have hd := foldl_registerProcessor_isSome regs "default-processor"
    (TransactionProcessor.new numWorkers) rfl
  refine ⟨hd,
    foldl_registerProcessor_isSome regs "visa-processor" (TransactionProcessor.new numWorkers) rfl,
    foldl_registerProcessor_isSome regs "mastercard-processor"
      (TransactionProcessor.new numWorkers) rfl, ?_⟩
  intro rand now t
  obtain ⟨key, handler, -, hp⟩ := TransactionProcessor.processTransaction_some _ rand now t
    (Option.ne_none_of_isSome_eq_true _ hd)
  rw [hp]
  rfl

/-- Counterexample to C29 as stated: after the digit-only string of 238609300
nines, `calculate_luhn_check_digit` returns `'@'`, which is none of the
characters `'0'` to `'9'`. -/
theorem check_digit_of_long_string_not_a_digit :
    (∀ c ∈ (nines 238609300).data, fintechx_core.isdigit c = true) ∧
    calculate_luhn_check_digit (nines 238609300) = '@' ∧
    fintechx_core.isdigit (calculate_luhn_check_digit (nines 238609300)) = false := by
  refine ⟨fintechx_core.isdigit_of_mem_nines _,
    fintechx_core.calculate_luhn_check_digit_long_nines, ?_⟩
  rw [fintechx_core.calculate_luhn_check_digit_long_nines]
  decide

/-- C29, with the length bounded: the computed check digit is the only one that
validates: for every digit-only string `p` of at most 238609293 characters (the
empty string included) and every decimal digit `d`, `luhn_check` of `p`
followed by `d` is true if and only if `d` is `calculate_luhn_check_digit p`,
and that result is one of `'0'` to `'9'`. -/
theorem check_digit_is_the_only_valid_digit (p : String) (d : Char)
    (hp : ∀ c ∈ p.data, fintechx_core.isdigit c = true) (hlen : p.length ≤ 238609293)
    (hd : fintechx_core.isdigit d = true) :
    (luhn_check (p.push d) = true ↔ d = calculate_luhn_check_digit p) ∧
    fintechx_core.isdigit (calculate_luhn_check_digit p) = true := by
  have hp' := (fintechx_core.is_digits_iff p).2 hp
  refine ⟨fintechx_core.luhn_check_push_iff p hp' d hd hlen, ?_⟩
  obtain ⟨k, hk, hcd, -⟩ := fintechx_core.calculate_luhn_check_digit_spec p hp' (by omega)
  rw [hcd]
  exact fintechx_core.isdigit_ofNat_digit k hk

/-- Witness of C29: after `"453914880343646"` the digit `'7'` validates and is
the computed check digit; after the empty string `'5'` is not the computed
check digit and `"5"` does not validate. -/
theorem check_digit_is_the_only_valid_digit_witness :
    ('7' = calculate_luhn_check_digit "453914880343646" ∧
      luhn_check "4539148803436467" = true) ∧
    ('5' ≠ calculate_luhn_check_digit "" ∧ luhn_check "5" = false) :=
  ⟨⟨rfl,
      ((check_digit_is_the_only_valid_digit "453914880343646" '7' (by decide) (by decide)
        (by decide)).1).2 rfl⟩,
    ⟨by decide, by
      rw [← Bool.not_eq_true]
      exact fun h => absurd
        (((check_digit_is_the_only_valid_digit "" '5' (by decide) (by decide)
          (by decide)).1).1 h)
        (by decide)⟩⟩

/-- C30: in a freshly constructed engine the router sends every EUR and GBP
transaction to `"european-processor"`, for which no handler is registered, so
every such transaction is handled by the default handler whatever its card
token is: the published result is what `processDefaultTransaction` leaves,
`APPROVED` with code `"00"` when the amount is below 10000 and `DECLINED` with
code `"51"` otherwise, and it does not depend on the `rand()` outcomes that
decide the Visa and Mastercard handlers. -/
theorem fresh_engine_european_goes_to_default (numWorkers : Int) (rand : Nat → Nat) (now : Nat)
    (t : Transaction) (h : t.currency = "EUR" ∨ t.currency = "GBP") :
    (TransactionProcessor.new numWorkers).router.getProcessorForTransaction t
      = "european-processor" ∧
    (TransactionProcessor.new numWorkers).processors.find "european-processor" = none ∧
    (∃ e' : TransactionProcessor,
      (TransactionProcessor.new numWorkers).processTransaction rand now t =
        some ((TransactionProcessor.processDefaultTransaction rand
          (t.setStatus Transaction.Status.PROCESSING)).setProcessedAt now, e') ∧
      e'.transactionResults.find t.id =
        some ((TransactionProcessor.processDefaultTransaction rand
          (t.setStatus Transaction.Status.PROCESSING)).setProcessedAt now)) ∧
    (t.amount < 10000 →
      ((TransactionProcessor.processDefaultTransaction rand
        (t.setStatus Transaction.Status.PROCESSING)).setProcessedAt now).status
          = Transaction.Status.APPROVED ∧
      ((TransactionProcessor.processDefaultTransaction rand
        (t.setStatus Transaction.Status.PROCESSING)).setProcessedAt now).response_code = "00") ∧
    (¬ t.amount < 10000 →
      ((TransactionProcessor.processDefaultTransaction rand
        (t.setStatus Transaction.Status.PROCESSING)).setProcessedAt now).status
          = Transaction.Status.DECLINED ∧
      ((TransactionProcessor.processDefaultTransaction rand
        (t.setStatus Transaction.Status.PROCESSING)).setProcessedAt now).response_code = "51") ∧
    (∀ rand' : Nat → Nat,
      (TransactionProcessor.new numWorkers).processTransaction rand' now t
        = (TransactionProcessor.new numWorkers).processTransaction rand now t) := by
  have hroute : ∀ t' : Transaction, t'.currency = t.currency →
      (TransactionProcessor.new numWorkers).router.getProcessorForTransaction t'
        = "european-processor" := by
    intro t' ht'
    rw [TransactionProcessor.new_router]
    rcases h with h | h <;>
      simp [TransactionRouter.getProcessorForTransaction, UnorderedMap.find, ht', h]
  have hnone : (TransactionProcessor.new numWorkers).processors.find "european-processor"
      = none := rfl
  have hfind : (TransactionProcessor.new numWorkers).processors.find
      ((TransactionProcessor.new numWorkers).router.getProcessorForTransaction
        (t.setStatus Transaction.Status.PROCESSING)) = none := by
    rw [hroute (t.setStatus Transaction.Status.PROCESSING) rfl]; exact hnone
  have hdef : (TransactionProcessor.new numWorkers).processors.find "default-processor"
      = some TransactionProcessor.processDefaultTransaction := rfl
  have hproc := fun r => TransactionProcessor.processTransaction_of_fallback
    (TransactionProcessor.new numWorkers) r now t
    TransactionProcessor.processDefaultTransaction hfind hdef
  have hid : ∀ r, (TransactionProcessor.processDefaultTransaction r
      (t.setStatus Transaction.Status.PROCESSING)).id = t.id := by
    intro r
    unfold TransactionProcessor.processDefaultTransaction
    split_ifs <;> rfl
  refine ⟨hroute t rfl, hnone, ⟨_, hproc rand, ?_⟩, ?_, ?_, ?_⟩
  · show UnorderedMap.find (UnorderedMap.assign _ _ _) t.id = _
    rw [hid rand]
    exact UnorderedMap.find_assign_self _ _ _
  · intro hlt
    rw [TransactionProcessor.processDefaultTransaction_approved rand
      (t.setStatus Transaction.Status.PROCESSING) hlt]
    exact ⟨rfl, rfl⟩
  · intro hge
    rw [TransactionProcessor.processDefaultTransaction_declined rand
      (t.setStatus Transaction.Status.PROCESSING) hge]
    exact ⟨rfl, rfl⟩
  · intro rand'
    rw [hproc rand', hproc rand]
    by_cases hlt : t.amount < 10000
    · rw [TransactionProcessor.processDefaultTransaction_approved rand
          (t.setStatus Transaction.Status.PROCESSING) hlt,
        TransactionProcessor.processDefaultTransaction_approved rand'
          (t.setStatus Transaction.Status.PROCESSING) hlt]
    · rw [TransactionProcessor.processDefaultTransaction_declined rand
          (t.setStatus Transaction.Status.PROCESSING) hlt,
        TransactionProcessor.processDefaultTransaction_declined rand'
          (t.setStatus Transaction.Status.PROCESSING) hlt]

/-- Witness of C30: a GBP payment of 25000.00 with a `visa` token, in a fresh
engine, is declined with code `"51"` by the default handler. -/
theorem fresh_engine_european_goes_to_default_witness :
    (TransactionProcessor.new 4).router.getProcessorForTransaction
      (samplePayment "t9" 25000 "GBP" "visa-1") = "european-processor" ∧
    ((TransactionProcessor.processDefaultTransaction (fun _ => 0)
      ((samplePayment "t9" 25000 "GBP" "visa-1").setStatus
        Transaction.Status.PROCESSING)).setProcessedAt 9).response_code = "51" :=
  ⟨(fresh_engine_european_goes_to_default 4 (fun _ => 0) 9
      (samplePayment "t9" 25000 "GBP" "visa-1") (Or.inr rfl)).1,
    ((fresh_engine_european_goes_to_default 4 (fun _ => 0) 9
      (samplePayment "t9" 25000 "GBP" "visa-1") (Or.inr rfl)).2.2.2.2.1
        (by norm_num [samplePayment, Transaction.new, Transaction.setStatus])).2⟩

/-! ## Properties of `encryption_utils.cpp` -/

namespace fintechx_core

theorem encrypt_aes_gcm_eq_stages (lib : OpenSSL) (plaintext key iv aad : Bytes) :
    encrypt_aes_gcm lib plaintext key iv aad =
      if key.length ≠ 32 ∨ iv.length ≠ 12 then (none, [])
      else encrypt_from_new lib plaintext key iv aad := by
  rfl

theorem decrypt_aes_gcm_eq_stages (lib : OpenSSL) (cwt key iv aad : Bytes) :
    decrypt_aes_gcm lib cwt key iv aad =
      if key.length ≠ 32 ∨ iv.length ≠ 12 ∨ cwt.length < 16 then (none, [])
      else decrypt_from_new lib (cwt.take (cwt.length - 16)) (cwt.drop (cwt.length - 16))
        (List.replicate (cwt.length - 16) 0) key iv aad := by
  rfl

/-- A call that passes the expected data: a ciphertext passed to
`EVP_DecryptUpdate` is `ciphertext`, a tag passed to `SET_TAG` is `tag`. -/
theorem decrypt_from_final_spec (lib : OpenSSL) (t7 : List EvpCall) (plaintext : Bytes)
    (len : Nat) :
    (decrypt_from_final lib t7 plaintext len).2
      = t7 ++ [EvpCall.DecryptFinal_ex, EvpCall.CIPHER_CTX_free] ∧
    ∀ p, (decrypt_from_final lib t7 plaintext len).1 = some p →
      0 < (lib t7 EvpCall.DecryptFinal_ex).ret := by
  simp only [decrypt_from_final]
  split_ifs with h
  · exact ⟨rfl, fun _ _ => h⟩
  · exact ⟨rfl, fun p hp => False.elim hp⟩

theorem decrypt_from_set_tag_spec (lib : OpenSSL) (t6 : List EvpCall) (tag plaintext : Bytes)
    (len : Nat) :
    (∃ rest : List EvpCall,
      (decrypt_from_set_tag lib t6 tag plaintext len).2
        = t6 ++ [EvpCall.CTRL_GCM_SET_TAG tag] ++ rest ∧
      ∀ c ∈ rest, c = EvpCall.DecryptFinal_ex ∨ c = EvpCall.CIPHER_CTX_free) ∧
    ∀ p, (decrypt_from_set_tag lib t6 tag plaintext len).1 = some p →
      (decrypt_from_set_tag lib t6 tag plaintext len).2
        = t6 ++ [EvpCall.CTRL_GCM_SET_TAG tag] ++
          [EvpCall.DecryptFinal_ex, EvpCall.CIPHER_CTX_free] ∧
      0 < (lib (t6 ++ [EvpCall.CTRL_GCM_SET_TAG tag]) EvpCall.DecryptFinal_ex).ret := by
  simp only [decrypt_from_set_tag]
  split_ifs with h
  · exact ⟨⟨[EvpCall.CIPHER_CTX_free], rfl, by simp⟩, fun p hp => False.elim hp⟩
  · obtain ⟨h1, h2⟩ := decrypt_from_final_spec lib (t6 ++ [EvpCall.CTRL_GCM_SET_TAG tag])
      plaintext len
    exact ⟨⟨[EvpCall.DecryptFinal_ex, EvpCall.CIPHER_CTX_free], h1, by simp⟩,
      fun p hp => ⟨h1, h2 p hp⟩⟩

theorem decrypt_from_update_spec (lib : OpenSSL) (t5 : List EvpCall)
    (ciphertext tag plaintext : Bytes) :
    (∃ rest : List EvpCall,
      (decrypt_from_update lib t5 ciphertext tag plaintext).2
        = t5 ++ [EvpCall.DecryptUpdate ciphertext] ++ rest ∧
      ∀ c ∈ rest, c = EvpCall.CTRL_GCM_SET_TAG tag ∨ c = EvpCall.DecryptFinal_ex ∨
        c = EvpCall.CIPHER_CTX_free) ∧
    ∀ p, (decrypt_from_update lib t5 ciphertext tag plaintext).1 = some p →
      (decrypt_from_update lib t5 ciphertext tag plaintext).2
        = t5 ++ [EvpCall.DecryptUpdate ciphertext, EvpCall.CTRL_GCM_SET_TAG tag] ++
          [EvpCall.DecryptFinal_ex, EvpCall.CIPHER_CTX_free] ∧
      0 < (lib (t5 ++ [EvpCall.DecryptUpdate ciphertext, EvpCall.CTRL_GCM_SET_TAG tag])
        EvpCall.DecryptFinal_ex).ret := by
  simp only [decrypt_from_update]
  split_ifs with h
  · exact ⟨⟨[EvpCall.CIPHER_CTX_free], rfl, by simp⟩, fun p hp => False.elim hp⟩
  · obtain ⟨⟨rest, h1, h2⟩, h3⟩ := decrypt_from_set_tag_spec lib
      (t5 ++ [EvpCall.DecryptUpdate ciphertext]) tag
      (write_at plaintext 0 (lib t5 (EvpCall.DecryptUpdate ciphertext)).out)
      (lib t5 (EvpCall.DecryptUpdate ciphertext)).out.length
    refine ⟨⟨EvpCall.CTRL_GCM_SET_TAG tag :: rest, ?_, ?_⟩, ?_⟩
    · rw [h1]; simp
    · intro c hc
      rcases List.mem_cons.1 hc with hc | hc
      · exact Or.inl hc
      · exact Or.inr (h2 c hc)
    · intro p hp
      obtain ⟨h4, h5⟩ := h3 p hp
      refine ⟨?_, ?_⟩
      · rw [h4]; simp
      · simpa using h5

theorem decrypt_from_aad_spec (lib : OpenSSL) (t4 : List EvpCall)
    (ciphertext tag plaintext aad : Bytes) :
    (∃ t5 rest : List EvpCall,
      (decrypt_from_aad lib t4 ciphertext tag plaintext aad).2 = t5 ++ rest ∧
      (t5 = t4 ∨ t5 = t4 ++ [EvpCall.DecryptUpdate_aad aad]) ∧
      ∀ c ∈ rest, c = EvpCall.DecryptUpdate ciphertext ∨ c = EvpCall.CTRL_GCM_SET_TAG tag ∨
        c = EvpCall.DecryptFinal_ex ∨ c = EvpCall.CIPHER_CTX_free) ∧
    ∀ p, (decrypt_from_aad lib t4 ciphertext tag plaintext aad).1 = some p →
      ∃ t5 : List EvpCall, (t5 = t4 ∨ t5 = t4 ++ [EvpCall.DecryptUpdate_aad aad]) ∧
        (decrypt_from_aad lib t4 ciphertext tag plaintext aad).2
          = t5 ++ [EvpCall.DecryptUpdate ciphertext, EvpCall.CTRL_GCM_SET_TAG tag] ++
            [EvpCall.DecryptFinal_ex, EvpCall.CIPHER_CTX_free] ∧
        0 < (lib (t5 ++ [EvpCall.DecryptUpdate ciphertext, EvpCall.CTRL_GCM_SET_TAG tag])
          EvpCall.DecryptFinal_ex).ret := by
  have key : ∀ t5 : List EvpCall, (t5 = t4 ∨ t5 = t4 ++ [EvpCall.DecryptUpdate_aad aad]) →
      (∃ t5' rest : List EvpCall,
        (decrypt_from_update lib t5 ciphertext tag plaintext).2 = t5' ++ rest ∧
        (t5' = t4 ∨ t5' = t4 ++ [EvpCall.DecryptUpdate_aad aad]) ∧
        ∀ c ∈ rest, c = EvpCall.DecryptUpdate ciphertext ∨ c = EvpCall.CTRL_GCM_SET_TAG tag ∨
          c = EvpCall.DecryptFinal_ex ∨ c = EvpCall.CIPHER_CTX_free) ∧
      ∀ p, (decrypt_from_update lib t5 ciphertext tag plaintext).1 = some p →
        ∃ t5' : List EvpCall, (t5' = t4 ∨ t5' = t4 ++ [EvpCall.DecryptUpdate_aad aad]) ∧
          (decrypt_from_update lib t5 ciphertext tag plaintext).2
            = t5' ++ [EvpCall.DecryptUpdate ciphertext, EvpCall.CTRL_GCM_SET_TAG tag] ++
              [EvpCall.DecryptFinal_ex, EvpCall.CIPHER_CTX_free] ∧
          0 < (lib (t5' ++ [EvpCall.DecryptUpdate ciphertext, EvpCall.CTRL_GCM_SET_TAG tag])
            EvpCall.DecryptFinal_ex).ret := by
    intro t5 ht5
    obtain ⟨⟨rest, h1, h2⟩, h3⟩ := decrypt_from_update_spec lib t5 ciphertext tag plaintext
    refine ⟨⟨t5, EvpCall.DecryptUpdate ciphertext :: rest, ?_, ht5, ?_⟩, ?_⟩
    · rw [h1]; simp
    · intro c hc
      rcases List.mem_cons.1 hc with hc | hc
      · exact Or.inl hc
      · exact Or.inr (h2 c hc)
    · intro p hp
      exact ⟨t5, ht5, h3 p hp⟩
  simp only [decrypt_from_aad]
  split_ifs with h1 h2 h3
  · exact ⟨⟨t4, [EvpCall.CIPHER_CTX_free], rfl, Or.inl rfl, by simp⟩, fun p hp => False.elim hp⟩
  · exact ⟨⟨t4 ++ [EvpCall.DecryptUpdate_aad aad], [EvpCall.CIPHER_CTX_free], rfl, Or.inr rfl,
      by simp⟩, fun p hp => False.elim hp⟩
  · exact key t4 (Or.inl rfl)
  · exact key _ (Or.inr rfl)

/-- From the `EVP_DecryptUpdate` of the ciphertext on, when that call and
`SET_TAG` succeed: the calls made, and the result, which hangs on the value
returned by `EVP_DecryptFinal_ex`. -/
theorem decrypt_from_update_of_success (lib : OpenSSL) (t5 : List EvpCall)
    (ciphertext tag plaintext : Bytes)
    (hu : (lib t5 (EvpCall.DecryptUpdate ciphertext)).ret ≠ 0)
    (ht : (lib (t5 ++ [EvpCall.DecryptUpdate ciphertext]) (EvpCall.CTRL_GCM_SET_TAG tag)).ret
      ≠ 0) :
    decrypt_from_update lib t5 ciphertext tag plaintext =
      (if 0 < (lib (t5 ++ [EvpCall.DecryptUpdate ciphertext, EvpCall.CTRL_GCM_SET_TAG tag])
          EvpCall.DecryptFinal_ex).ret then
        some (resize
          (write_at (write_at plaintext 0 (lib t5 (EvpCall.DecryptUpdate ciphertext)).out)
            (lib t5 (EvpCall.DecryptUpdate ciphertext)).out.length
            (lib (t5 ++ [EvpCall.DecryptUpdate ciphertext, EvpCall.CTRL_GCM_SET_TAG tag])
              EvpCall.DecryptFinal_ex).out)
          ((lib t5 (EvpCall.DecryptUpdate ciphertext)).out.length +
            (lib (t5 ++ [EvpCall.DecryptUpdate ciphertext, EvpCall.CTRL_GCM_SET_TAG tag])
              EvpCall.DecryptFinal_ex).out.length))
      else none,
      t5 ++ [EvpCall.DecryptUpdate ciphertext, EvpCall.CTRL_GCM_SET_TAG tag,
        EvpCall.DecryptFinal_ex, EvpCall.CIPHER_CTX_free]) := by
  have e : t5 ++ [EvpCall.DecryptUpdate ciphertext] ++ [EvpCall.CTRL_GCM_SET_TAG tag]
      = t5 ++ [EvpCall.DecryptUpdate ciphertext, EvpCall.CTRL_GCM_SET_TAG tag] := by simp
  simp only [decrypt_from_update, decrypt_from_set_tag, decrypt_from_final, if_neg hu,
    if_neg ht, e, gt_iff_lt]
  split_ifs <;> simp

/-- From the allocation of the context on, when every set-up call succeeds: the
function reaches the `EVP_DecryptUpdate` of the ciphertext after the calls
`decryptSetupCalls`. -/
theorem decrypt_from_new_of_success (lib : OpenSSL) (ciphertext tag plaintext key iv aad : Bytes)
    (h1 : (lib [] EvpCall.CIPHER_CTX_new).ret ≠ 0)
    (h2 : (lib [EvpCall.CIPHER_CTX_new] EvpCall.DecryptInit_ex_cipher).ret ≠ 0)
    (h3 : (lib [EvpCall.CIPHER_CTX_new, EvpCall.DecryptInit_ex_cipher]
      (EvpCall.CTRL_GCM_SET_IVLEN iv.length)).ret ≠ 0)
    (h4 : (lib [EvpCall.CIPHER_CTX_new, EvpCall.DecryptInit_ex_cipher,
      EvpCall.CTRL_GCM_SET_IVLEN iv.length] (EvpCall.DecryptInit_ex_key_iv key iv)).ret ≠ 0)
    (h5 : aad.isEmpty = false →
      (lib [EvpCall.CIPHER_CTX_new, EvpCall.DecryptInit_ex_cipher,
        EvpCall.CTRL_GCM_SET_IVLEN iv.length, EvpCall.DecryptInit_ex_key_iv key iv]
        (EvpCall.DecryptUpdate_aad aad)).ret ≠ 0) :
    decrypt_from_new lib ciphertext tag plaintext key iv aad
      = decrypt_from_update lib (decryptSetupCalls key iv aad) ciphertext tag plaintext := by
  have e2 : [EvpCall.CIPHER_CTX_new] ++ [EvpCall.DecryptInit_ex_cipher]
      = [EvpCall.CIPHER_CTX_new, EvpCall.DecryptInit_ex_cipher] := rfl
  have e3 : [EvpCall.CIPHER_CTX_new, EvpCall.DecryptInit_ex_cipher] ++
      [EvpCall.CTRL_GCM_SET_IVLEN iv.length]
      = [EvpCall.CIPHER_CTX_new, EvpCall.DecryptInit_ex_cipher,
        EvpCall.CTRL_GCM_SET_IVLEN iv.length] := rfl
  have e4 : [EvpCall.CIPHER_CTX_new, EvpCall.DecryptInit_ex_cipher,
      EvpCall.CTRL_GCM_SET_IVLEN iv.length] ++ [EvpCall.DecryptInit_ex_key_iv key iv]
      = [EvpCall.CIPHER_CTX_new, EvpCall.DecryptInit_ex_cipher,
        EvpCall.CTRL_GCM_SET_IVLEN iv.length, EvpCall.DecryptInit_ex_key_iv key iv] := rfl
  simp only [decrypt_from_new, e2, e3, e4, if_neg h1, if_neg h2, if_neg h3, if_neg h4,
    decrypt_from_aad, decryptSetupCalls]
  cases ha : aad.isEmpty with
  | true => simp
  | false =>
    have h5' := h5 ha
    simp [h5']

/-- The calls made by `decrypt_aes_gcm` once the sizes are accepted: the only
ciphertext passed to `EVP_DecryptUpdate` is `ciphertext`, the only tag passed to
`SET_TAG` is `tag`, and a value is returned only after both calls were made and
`EVP_DecryptFinal_ex` returned a positive value. -/
theorem decrypt_from_new_spec (lib : OpenSSL) (ciphertext tag plaintext key iv aad : Bytes) :
    (∀ data, EvpCall.DecryptUpdate data ∈
        (decrypt_from_new lib ciphertext tag plaintext key iv aad).2 → data = ciphertext) ∧
    (∀ given, EvpCall.CTRL_GCM_SET_TAG given ∈
        (decrypt_from_new lib ciphertext tag plaintext key iv aad).2 → given = tag) ∧
    ∀ p, (decrypt_from_new lib ciphertext tag plaintext key iv aad).1 = some p →
      ∃ calls : List EvpCall,
        (decrypt_from_new lib ciphertext tag plaintext key iv aad).2
          = calls ++ [EvpCall.DecryptFinal_ex, EvpCall.CIPHER_CTX_free] ∧
        0 < (lib calls EvpCall.DecryptFinal_ex).ret ∧
        EvpCall.DecryptUpdate ciphertext ∈ calls ∧
        EvpCall.CTRL_GCM_SET_TAG tag ∈ calls := by
  simp only [decrypt_from_new]
  split_ifs with h1 h2 h3 h4
  · simp
  · simp
  · simp
  · simp
  · obtain ⟨⟨t5, rest, hs, ht5, hrest⟩, hsome⟩ := decrypt_from_aad_spec lib
      ([EvpCall.CIPHER_CTX_new] ++ [EvpCall.DecryptInit_ex_cipher] ++
        [EvpCall.CTRL_GCM_SET_IVLEN iv.length] ++ [EvpCall.DecryptInit_ex_key_iv key iv])
      ciphertext tag plaintext aad
    refine ⟨?_, ?_, ?_⟩
    · intro data hd
      rw [hs] at hd
      rcases List.mem_append.1 hd with hd | hd
      · rcases ht5 with ht5 | ht5 <;> (rw [ht5] at hd; simp at hd)
      · rcases hrest _ hd with h | h | h | h
        · exact EvpCall.DecryptUpdate.inj h
        · exact EvpCall.noConfusion h
        · exact EvpCall.noConfusion h
        · exact EvpCall.noConfusion h
    · intro given hd
      rw [hs] at hd
      rcases List.mem_append.1 hd with hd | hd
      · rcases ht5 with ht5 | ht5 <;> (rw [ht5] at hd; simp at hd)
      · rcases hrest _ hd with h | h | h | h
        · exact EvpCall.noConfusion h
        · exact EvpCall.CTRL_GCM_SET_TAG.inj h
        · exact EvpCall.noConfusion h
        · exact EvpCall.noConfusion h
    · intro p hp
      obtain ⟨t5', -, htr, hret⟩ := hsome p hp
      exact ⟨_, htr, hret, by simp, by simp⟩

/-! ### The two functions on a library that keeps the contract -/

/-- C24: `encrypt_aes_gcm` returns no value for every input whose key length is
not 32 bytes or whose iv length is not 12 bytes, whatever the plaintext, the aad
and the library are, and it has made no OpenSSL call when it does so. -/
theorem encrypt_aes_gcm_rejects_sizes (lib : OpenSSL) (plaintext key iv aad : Bytes)
    (h : key.length ≠ 32 ∨ iv.length ≠ 12) :
    encrypt_aes_gcm lib plaintext key iv aad = (none, []) := by
  rw [encrypt_aes_gcm_eq_stages, if_pos h]

/-- Witness of C24: a 31-byte key with a 12-byte iv, and a 32-byte key with a
16-byte iv. -/
theorem encrypt_aes_gcm_rejects_sizes_witness :
    encrypt_aes_gcm sampleLib helloBytes (List.replicate 31 0) (List.replicate 12 0) []
      = (none, []) ∧
    encrypt_aes_gcm sampleLib helloBytes (List.replicate 32 0) (List.replicate 16 0) helloBytes
      = (none, []) :=
  ⟨encrypt_aes_gcm_rejects_sizes _ _ _ _ _ (Or.inl (by decide)),
    encrypt_aes_gcm_rejects_sizes _ _ _ _ _ (Or.inr (by decide))⟩

/-- C25: `decrypt_aes_gcm` returns no value, without any OpenSSL call, for every
input whose key length is not 32, whose iv length is not 12, or whose
`ciphertext_with_tag` is shorter than 16 bytes.  For an accepted input of length
`n` the only ciphertext it passes to `EVP_DecryptUpdate` is the first `n − 16`
bytes and the only tag it passes to `SET_TAG` is the last 16 bytes; it returns a
value only after both calls and after `EVP_DecryptFinal_ex`, the tag
verification, returned a positive value.  When the calls before
`EVP_DecryptFinal_ex` succeed, the calls made on an accepted input are the
set-up calls, `EVP_DecryptUpdate` on the first `n − 16` bytes, `SET_TAG` on the
last 16 bytes, `EVP_DecryptFinal_ex` and the release of the context; the
function returns no value when `EVP_DecryptFinal_ex` does not return a positive
value, and the decrypted bytes when it does. -/
theorem decrypt_aes_gcm_rejects_and_splits (lib : OpenSSL)
    (ciphertext_with_tag key iv aad : Bytes) :
    (key.length ≠ 32 ∨ iv.length ≠ 12 ∨ ciphertext_with_tag.length < 16 →
      decrypt_aes_gcm lib ciphertext_with_tag key iv aad = (none, [])) ∧
    (∀ data, EvpCall.DecryptUpdate data ∈ (decrypt_aes_gcm lib ciphertext_with_tag key iv aad).2 →
      data = ciphertext_with_tag.take (ciphertext_with_tag.length - 16)) ∧
    (∀ given,
      EvpCall.CTRL_GCM_SET_TAG given ∈ (decrypt_aes_gcm lib ciphertext_with_tag key iv aad).2 →
      given = ciphertext_with_tag.drop (ciphertext_with_tag.length - 16) ∧ given.length = 16) ∧
    (∀ p, (decrypt_aes_gcm lib ciphertext_with_tag key iv aad).1 = some p →
      ∃ calls : List EvpCall,
        (decrypt_aes_gcm lib ciphertext_with_tag key iv aad).2
          = calls ++ [EvpCall.DecryptFinal_ex, EvpCall.CIPHER_CTX_free] ∧
        0 < (lib calls EvpCall.DecryptFinal_ex).ret ∧
        EvpCall.DecryptUpdate (ciphertext_with_tag.take (ciphertext_with_tag.length - 16))
          ∈ calls ∧
        EvpCall.CTRL_GCM_SET_TAG (ciphertext_with_tag.drop (ciphertext_with_tag.length - 16))
          ∈ calls) ∧
    (key.length = 32 → iv.length = 12 → 16 ≤ ciphertext_with_tag.length →
      decryptCallsSucceed lib (ciphertext_with_tag.take (ciphertext_with_tag.length - 16))
        (ciphertext_with_tag.drop (ciphertext_with_tag.length - 16)) key iv aad →
      (decrypt_aes_gcm lib ciphertext_with_tag key iv aad).2
        = decryptSetupCalls key iv aad ++
          [EvpCall.DecryptUpdate (ciphertext_with_tag.take (ciphertext_with_tag.length - 16)),
            EvpCall.CTRL_GCM_SET_TAG
              (ciphertext_with_tag.drop (ciphertext_with_tag.length - 16)),
            EvpCall.DecryptFinal_ex, EvpCall.CIPHER_CTX_free] ∧
      (¬ 0 < (lib (decryptSetupCalls key iv aad ++
          [EvpCall.DecryptUpdate (ciphertext_with_tag.take (ciphertext_with_tag.length - 16)),
            EvpCall.CTRL_GCM_SET_TAG
              (ciphertext_with_tag.drop (ciphertext_with_tag.length - 16))])
          EvpCall.DecryptFinal_ex).ret →
        (decrypt_aes_gcm lib ciphertext_with_tag key iv aad).1 = none) ∧
      (0 < (lib (decryptSetupCalls key iv aad ++
          [EvpCall.DecryptUpdate (ciphertext_with_tag.take (ciphertext_with_tag.length - 16)),
            EvpCall.CTRL_GCM_SET_TAG
              (ciphertext_with_tag.drop (ciphertext_with_tag.length - 16))])
          EvpCall.DecryptFinal_ex).ret →
        (decrypt_aes_gcm lib ciphertext_with_tag key iv aad).1 =
          some (resize
            (write_at
              (write_at (List.replicate (ciphertext_with_tag.length - 16) 0) 0
                (lib (decryptSetupCalls key iv aad) (EvpCall.DecryptUpdate
                  (ciphertext_with_tag.take (ciphertext_with_tag.length - 16)))).out)
              (lib (decryptSetupCalls key iv aad) (EvpCall.DecryptUpdate
                (ciphertext_with_tag.take (ciphertext_with_tag.length - 16)))).out.length
              (lib (decryptSetupCalls key iv aad ++
                [EvpCall.DecryptUpdate
                    (ciphertext_with_tag.take (ciphertext_with_tag.length - 16)),
                  EvpCall.CTRL_GCM_SET_TAG
                    (ciphertext_with_tag.drop (ciphertext_with_tag.length - 16))])
                EvpCall.DecryptFinal_ex).out)
            ((lib (decryptSetupCalls key iv aad) (EvpCall.DecryptUpdate
                (ciphertext_with_tag.take (ciphertext_with_tag.length - 16)))).out.length +
              (lib (decryptSetupCalls key iv aad ++
                [EvpCall.DecryptUpdate
                    (ciphertext_with_tag.take (ciphertext_with_tag.length - 16)),
                  EvpCall.CTRL_GCM_SET_TAG
                    (ciphertext_with_tag.drop (ciphertext_with_tag.length - 16))])
                EvpCall.DecryptFinal_ex).out.length)))) := by
  rw [decrypt_aes_gcm_eq_stages]
  by_cases hg : key.length ≠ 32 ∨ iv.length ≠ 12 ∨ ciphertext_with_tag.length < 16
  · rw [if_pos hg]
    refine ⟨fun _ => rfl, by simp, by simp, by simp, ?_⟩
    intro hk hi hc
    rcases hg with h | h | h
    · exact absurd hk h
    · exact absurd hi h
    · omega
  · rw [if_neg hg]
    obtain ⟨h1, h2, h3⟩ := decrypt_from_new_spec lib
      (ciphertext_with_tag.take (ciphertext_with_tag.length - 16))
      (ciphertext_with_tag.drop (ciphertext_with_tag.length - 16))
      (List.replicate (ciphertext_with_tag.length - 16) 0) key iv aad
    refine ⟨fun h => absurd h hg, h1, ?_, h3, ?_⟩
    · intro given hgiven
      have := h2 given hgiven
      refine ⟨this, ?_⟩
      rw [this, List.length_drop]
      simp only [not_or, not_lt] at hg
      omega
    · intro _ _ _ hs
      obtain ⟨s1, s2, s3, s4, s5, s6, s7⟩ := hs
      rw [decrypt_from_new_of_success lib _ _ _ key iv aad s1 s2 s3 s4 s5,
        decrypt_from_update_of_success lib _ _ _ _ s6 s7]
      refine ⟨rfl, fun h => if_neg h, fun h => if_pos h⟩

/-- Witness of C25: a 15-byte input is rejected without any call; on the
stand-in library the input `"hello"` followed by sixteen bytes 1, whose tag is
not verified, goes through the calls on `"hello"` and on the sixteen bytes 1
and gives no value, and `"hello"` followed by sixteen bytes 0 gives `"hello"`. -/
theorem decrypt_aes_gcm_rejects_and_splits_witness :
    decrypt_aes_gcm sampleLib (List.replicate 15 0) (List.replicate 32 0) (List.replicate 12 0) []
      = (none, []) ∧
    ((decrypt_aes_gcm sampleLib (helloBytes ++ List.replicate 16 1) (List.replicate 32 0)
      (List.replicate 12 0) []).2
        = decryptSetupCalls (List.replicate 32 0) (List.replicate 12 0) [] ++
          [EvpCall.DecryptUpdate helloBytes, EvpCall.CTRL_GCM_SET_TAG (List.replicate 16 1),
            EvpCall.DecryptFinal_ex, EvpCall.CIPHER_CTX_free] ∧
      (decrypt_aes_gcm sampleLib (helloBytes ++ List.replicate 16 1) (List.replicate 32 0)
        (List.replicate 12 0) []).1 = none) ∧
    (decrypt_aes_gcm sampleLib (helloBytes ++ List.replicate 16 0) (List.replicate 32 0)
      (List.replicate 12 0) []).1 = some helloBytes :=
  ⟨(decrypt_aes_gcm_rejects_and_splits sampleLib _ _ _ _).1 (Or.inr (Or.inr (by decide))),
    ⟨((decrypt_aes_gcm_rejects_and_splits sampleLib (helloBytes ++ List.replicate 16 1)
        (List.replicate 32 0) (List.replicate 12 0) []).2.2.2.2
        (by decide) (by decide) (by decide) (by decide)).1,
      ((decrypt_aes_gcm_rejects_and_splits sampleLib (helloBytes ++ List.replicate 16 1)
        (List.replicate 32 0) (List.replicate 12 0) []).2.2.2.2
        (by decide) (by decide) (by decide) (by decide)).2.1 (by decide)⟩,
    ((decrypt_aes_gcm_rejects_and_splits sampleLib (helloBytes ++ List.replicate 16 0)
      (List.replicate 32 0) (List.replicate 12 0) []).2.2.2.2
      (by decide) (by decide) (by decide) (by decide)).2.2 (by decide)⟩

end fintechx_core

/-! ## The priority of the brand probes -/

/-- C31: brand inference has a fixed priority when several probes match: every
card token containing `"visa"` is inferred as `"visa"`, even if it also
contains `"mc"` or `"amex"`; every token containing `"mc"` but not `"visa"` is
inferred as `"mastercard"`, even if it also contains `"amex"`.  The position of
the substrings in the token does not matter: `"visa"` or `"mc"` may stand after
any text and before any text.  `"amex-mc-1"` is mastercard and `"mc-visa"` is
visa. -/
theorem extractCardBrand_priority (cardToken : String) :
    ("visa".data <:+: cardToken.data →
      TransactionRouter.extractCardBrand cardToken = "visa") ∧
    (¬ "visa".data <:+: cardToken.data → "mc".data <:+: cardToken.data →
      TransactionRouter.extractCardBrand cardToken = "mastercard") ∧
    (∀ before after : String,
      TransactionRouter.extractCardBrand (before ++ "visa" ++ after) = "visa") ∧
    (∀ before after : String, ¬ "visa".data <:+: (before ++ "mc" ++ after).data →
      TransactionRouter.extractCardBrand (before ++ "mc" ++ after) = "mastercard") ∧
    TransactionRouter.extractCardBrand "amex-mc-1" = "mastercard" ∧
    TransactionRouter.extractCardBrand "mc-visa" = "visa" := by
  refine ⟨?_, ?_, ?_, ?_, by decide, by decide⟩
  · intro h
    rw [TransactionRouter.extractCardBrand_eq, if_pos h]
  · intro h1 h2
    rw [TransactionRouter.extractCardBrand_eq, if_neg h1, if_pos h2]
  · intro before after
    have h : "visa".data <:+: (before ++ "visa" ++ after).data :=
      ⟨before.data, after.data, by simp [String.data_append]⟩
    rw [TransactionRouter.extractCardBrand_eq, if_pos h]
  · intro before after h1
    have h2 : "mc".data <:+: (before ++ "mc" ++ after).data :=
      ⟨before.data, after.data, by simp [String.data_append]⟩
    rw [TransactionRouter.extractCardBrand_eq, if_neg h1, if_pos h2]

/-- Witness of C31: `"amex-visa-mc"` holds all three substrings and is visa;
`"amex-mc-1"` holds `"amex"` before `"mc"` and no `"visa"`, and is mastercard. -/
theorem extractCardBrand_priority_witness :
    TransactionRouter.extractCardBrand "amex-visa-mc" = "visa" ∧
    TransactionRouter.extractCardBrand "amex-mc-1" = "mastercard" :=
  ⟨(extractCardBrand_priority "amex-visa-mc").1 (by decide),
    (extractCardBrand_priority "amex-mc-1").2.1 (by decide) (by decide)⟩
